import Mathlib

/-!
Verification development for the tabletop-RPG rules engine embedded in
`streamlit_app.py`: item canonicalization, equipment slots, armor class,
and the level-1 spellcasting subsystem.  Python dicts with optional keys
are modelled as structures with `Option` fields; `None`/missing/empty-dict
distinctions are preserved exactly where the code observes them.
-/

namespace RPG

/-! ### Python string primitives

The canonicalizer relies on CPython string semantics (`str.lower`,
`str.strip`, `str.split`, `str.title`, `string.punctuation`, substring
membership).  All inputs in the program are ASCII, where Lean's `Char`
operations coincide with Python's. -/

/-- `string.punctuation` from CPython. Backtick and braces are written with
hex escapes. -/
def pyPunctuation : List Char :=
  "!\"#$%&\x27()*+,-./:;<=>?@[\\]^_\x60\x7b|\x7d~".toList

/-- ASCII lowercase of one character (structural, kernel-reducible). -/
def lowerChar (c : Char) : Char :=
  if 65 ≤ c.toNat ∧ c.toNat ≤ 90 then Char.ofNat (c.toNat + 32) else c

/-- ASCII uppercase of one character. -/
def upperChar (c : Char) : Char :=
  if 97 ≤ c.toNat ∧ c.toNat ≤ 122 then Char.ofNat (c.toNat - 32) else c

/-- Python `s.lower()` (ASCII). -/
def pyLower (s : String) : String :=
  String.mk (s.toList.map lowerChar)

/-- Python `s.strip()`: drop leading and trailing whitespace. -/
def pyStrip (s : String) : String :=
  String.mk (((s.toList.dropWhile Char.isWhitespace).reverse.dropWhile
    Char.isWhitespace).reverse)

/-- `s.translate(str.maketrans("", "", string.punctuation))`: delete every
punctuation character. -/
def removePunct (s : String) : String :=
  String.mk (s.toList.filter (fun c => ¬ pyPunctuation.contains c))

/-- Helper for `pySplitWs`: split a character list on whitespace runs,
carrying the current (reversed) word. -/
def splitWsAux : List Char → List Char → List String
  | [], acc => if acc.isEmpty then [] else [String.mk acc.reverse]
  | c :: cs, acc =>
    if c.isWhitespace then
      if acc.isEmpty then splitWsAux cs []
      else String.mk acc.reverse :: splitWsAux cs []
    else splitWsAux cs (c :: acc)

/-- Python `s.split()`: split on whitespace runs, dropping empty pieces. -/
def pySplitWs (s : String) : List String :=
  splitWsAux s.toList []

/-- Python `sep.join(l)`. -/
def joinWith (sep : String) : List String → String
  | [] => ""
  | [x] => x
  | x :: xs => x ++ sep ++ joinWith sep xs

/-- Python `sub in s` substring membership on strings. -/
def strMem (sub s : String) : Bool :=
  (s.toList.tails.any (fun t => sub.toList.isPrefixOf t))

/-- Python `s.title()` (ASCII): a letter after a non-letter is uppercased,
any other letter is lowercased. -/
def pyTitle (s : String) : String :=
  String.mk ((s.toList.foldl
    (fun (acc : List Char × Bool) c =>
      if c.isAlpha then
        (acc.1 ++ [if acc.2 then lowerChar c else upperChar c], true)
      else
        (acc.1 ++ [c], false))
    ([], false)).1)

/-- Decimal digits of `n` (little fuel-indexed recursion so the kernel can
reduce it; `fuel ≥ n+1` suffices). -/
def natDigitsAux : Nat → Nat → List Char
  | 0, _ => []
  | fuel+1, n =>
    if n = 0 then []
    else natDigitsAux fuel (n / 10) ++ [Char.ofNat (48 + n % 10)]

/-- Python `str(n)` for a natural number. -/
def natToPyStr (n : Nat) : String :=
  if n = 0 then "0" else String.mk (natDigitsAux (n + 1) n)

/-- Python `str(i)` / f-string rendering of an integer. -/
def intToPyStr : Int → String
  | Int.ofNat n => natToPyStr n
  | Int.negSucc n => "-" ++ natToPyStr (n + 1)

/-- Order-preserving deduplication, standing in for Python's `set()`:
the code only uses the member set and the length of the joined set, both
of which are independent of iteration order. -/
def dedupKeep (l : List String) : List String :=
  l.foldl (fun acc w => if acc.contains w then acc else acc ++ [w]) []

/-! ### Item catalog (`SRD_ITEMS`), aliases, canonicalizer -/

/-- Payload of the `"armor"` key of an SRD armor record. -/
structure ArmorInfo where
  category : String
  base : Int
  dex_cap : Option Int
deriving DecidableEq, Repr

/-- One SRD catalog record.  Optional dict keys are `Option` fields; the
`hands` key is present on every record in the catalog. -/
structure ItemStats where
  type : String
  hands : Int
  damage : Option String := none
  properties : List String := []
  ac_bonus : Option Int := none
  armor : Option ArmorInfo := none
deriving DecidableEq, Repr

/-- `SRD_ITEMS`, in the source's insertion order (the fuzzy-match loop
iterates keys in this order). -/
def SRD_ITEMS : List (String × ItemStats) := [
  ("dagger",        { type := "weapon", hands := 1, damage := some "1d4",  properties := ["finesse","light","thrown"] }),
  ("shortsword",    { type := "weapon", hands := 1, damage := some "1d6",  properties := ["finesse","light"] }),
  ("longsword",     { type := "weapon", hands := 1, damage := some "1d8",  properties := ["versatile 1d10"] }),
  ("rapier",        { type := "weapon", hands := 1, damage := some "1d8",  properties := ["finesse"] }),
  ("battleaxe",     { type := "weapon", hands := 1, damage := some "1d8",  properties := ["versatile 1d10"] }),
  ("warhammer",     { type := "weapon", hands := 1, damage := some "1d8",  properties := ["versatile 1d10"] }),
  ("greataxe",      { type := "weapon", hands := 2, damage := some "1d12", properties := ["heavy","two-handed"] }),
  ("greatsword",    { type := "weapon", hands := 2, damage := some "2d6",  properties := ["heavy","two-handed"] }),
  ("shortbow",      { type := "weapon", hands := 2, damage := some "1d6",  properties := ["two-handed","ammunition","range"] }),
  ("longbow",       { type := "weapon", hands := 2, damage := some "1d8",  properties := ["heavy","two-handed","ammunition","range"] }),
  ("shield",        { type := "shield", hands := 1, ac_bonus := some 2,    properties := ["worn in one arm"] }),
  ("leather armor",   { type := "armor", hands := 0, armor := some { category := "light",  base := 11, dex_cap := none } }),
  ("studded leather", { type := "armor", hands := 0, armor := some { category := "light",  base := 12, dex_cap := none } }),
  ("chain shirt",     { type := "armor", hands := 0, armor := some { category := "medium", base := 13, dex_cap := some 2 } }),
  ("scale mail",      { type := "armor", hands := 0, armor := some { category := "medium", base := 14, dex_cap := some 2 } }),
  ("half plate",      { type := "armor", hands := 0, armor := some { category := "medium", base := 15, dex_cap := some 2 } }),
  ("chain mail",      { type := "armor", hands := 0, armor := some { category := "heavy",  base := 16, dex_cap := some 0 } }),
  ("splint",          { type := "armor", hands := 0, armor := some { category := "heavy",  base := 17, dex_cap := some 0 } }),
  ("plate",           { type := "armor", hands := 0, armor := some { category := "heavy",  base := 18, dex_cap := some 0 } }),
  ("boots",           { type := "gear", hands := 0, properties := ["footwear"] }),
  ("cloak",           { type := "gear", hands := 0, properties := ["clothing"] }),
  ("ring",            { type := "gear", hands := 0, properties := ["jewelry"] }),
  ("amulet",          { type := "gear", hands := 0, properties := ["neckwear"] }),
  ("helm",            { type := "gear", hands := 0, properties := ["headwear"] })]

/-- Key membership in `SRD_ITEMS`. -/
def srdHasKey (k : String) : Bool :=
  SRD_ITEMS.any (fun p => p.1 == k)

/-- Record lookup in `SRD_ITEMS`. -/
def srdGet (k : String) : Option ItemStats :=
  (SRD_ITEMS.find? (fun p => p.1 == k)).map (fun p => p.2)

/-- `SRD_ALIASES`. -/
def SRD_ALIASES : List (String × String) := [
  ("leather", "leather armor"),
  ("leather armour", "leather armor"),
  ("studded leather armor", "studded leather"),
  ("studded armour", "studded leather"),
  ("chainmail", "chain mail"),
  ("chain mail armor", "chain mail"),
  ("chainmail armor", "chain mail"),
  ("mail", "chain mail"),
  ("half-plate", "half plate"),
  ("breastplate", "scale mail"),
  ("long sword", "longsword"),
  ("short sword", "shortsword"),
  ("battle axe", "battleaxe"),
  ("war hammer", "warhammer"),
  ("great sword", "greatsword"),
  ("great axe", "greataxe"),
  ("buckler", "shield"),
  ("helmet", "helm"),
  ("chain shirt armor", "chain shirt")]

/-- `CLEAN_WORDS_TO_DROP`.  Note that the `"+1" … "+5"` entries can never
match a token, because `_tokenize` deletes punctuation (including `+`)
before filtering against this set. -/
def CLEAN_WORDS_TO_DROP : List String := [
  "well-made","fine","sturdy","rusty","old","new","decorated","engraved",
  "masterwork","+1","+2","+3","+4","+5","armor","armour","of","the"]

/-- `_tokenize`. -/
def _tokenize (s : String) : List String :=
  let s := pyLower s
  let s := removePunct s
  (pySplitWs s).filter (fun w => w ≠ "" && ¬ CLEAN_WORDS_TO_DROP.contains w)

/-- `_canonical_alias`. -/
def _canonical_alias (s : String) : Option String :=
  let key := pyLower (pyStrip s)
  (SRD_ALIASES.find? (fun p => p.1 == key)).map (fun p => p.2)

/-- The fuzzy-fallback loop of `canonicalize_item_name`: among catalog
keys whose token set is contained in the input's tokens, pick the first
with the longest joined token set. -/
def fuzzyBest (tokens : List String) : Option String :=
  (SRD_ITEMS.foldl
    (fun (acc : Option String × Int) kv =>
      let key_tokens := dedupKeep (_tokenize kv.1)
      if key_tokens ≠ [] && key_tokens.all (fun t => tokens.contains t) then
        let score : Int := (joinWith " " key_tokens).length
        if score > acc.2 then (some kv.1, score) else acc
      else acc)
    (none, -1)).1

/-- Steps (c)/(d) of `canonicalize_item_name` (the part after the direct
key and alias checks fail): tokenize, retry alias and key lookup on the
cleaned string, then the fuzzy fallback. -/
def canonTail (low : String) : Option String :=
  let tokens := _tokenize low
  let cleaned := joinWith " " tokens
  let ali2Ok := match _canonical_alias cleaned with
    | some ali2 => if srdHasKey ali2 then some ali2 else none
    | none => none
  match ali2Ok with
  | some ali2 => some ali2
  | none =>
    if srdHasKey cleaned then some cleaned else
    fuzzyBest tokens

/-- `canonicalize_item_name`.  `if not name` is the empty-string check;
Python's `x or y` fallthrough and `ali in SRD_ITEMS` with `ali = None`
(which is `False`) are rendered with explicit `Option` matches. -/
def canonicalize_item_name (name : String) : Option String :=
  if name = "" then none else
  let low := pyLower (pyStrip name)
  if srdHasKey low then some low else
  let aliOk := match _canonical_alias low with
    | some ali => if srdHasKey ali then some ali else none
    | none => none
  match aliOk with
  | some ali => some ali
  | none => canonTail low

/-- `lookup_item_stats`. -/
def lookup_item_stats (name : String) : Option ItemStats :=
  if name = "" then none else
  match canonicalize_item_name name with
  | some canon => srdGet canon
  | none => none

/-- `summarize_item`.  `stats = none` models the falsy empty dict `{}`;
Python prints a missing `damage`/`base` as the string `"None"`. -/
def summarize_item (name : String) (stats : Option ItemStats) : String :=
  match stats with
  | none => if name = "" then "—" else name
  | some st =>
    let label := (canonicalize_item_name name).getD name
    if st.type = "weapon" then
      let props0 := joinWith ", " st.properties
      let props := if props0 = "" then "—" else props0
      let dmg := match st.damage with | some d => d | none => "None"
      let handsStr := intToPyStr st.hands
      s!"{label} — {dmg} dmg, {props}; hands: {handsStr}"
    else if st.type = "shield" then
      let bonusStr := intToPyStr (st.ac_bonus.getD 0)
      s!"{label} — +{bonusStr} AC (shield)"
    else if st.type = "armor" then
      let cat := match st.armor with | some a => a.category | none => "armor"
      let baseStr := match st.armor with | some a => intToPyStr a.base | none => "None"
      let cap : Option Int := match st.armor with | some a => a.dex_cap | none => none
      let dex_text := match cap with
        | none => "+ Dex"
        | some c => if c > 0 then
            let capStr := intToPyStr c
            s!"+ Dex (max {capStr})"
          else ""
      let tail := if dex_text = "" then "" else " " ++ dex_text
      s!"{label} — {cat} armor, AC {baseStr}{tail}"
    else
      let props0 := joinWith ", " st.properties
      let props := if props0 = "" then "—" else props0
      s!"{label} — {props}"

/-! ### Equipment slots and the character record

`char["equipped"]` is a Python dict whose slot keys may be absent, `None`,
a proper entry dict, or (in legacy saves) a non-dict value.  `SlotVal`
keeps those four shapes apart: `missing` = key absent, `empty` = stored
`None`, `entry` = an entry dict, `junk` = a present non-dict value.  The
whole `equipped` value may itself be absent or a non-dict, modelled as
`Option` (`none` = absent/non-dict). -/

inductive Slot where
  | right_arm | left_arm | body | feet | right_hand | left_hand | neck | head
deriving DecidableEq, Fintype, Repr

/-- `SLOTS`, in source order. -/
def SLOTS : List Slot :=
  [.right_arm, .left_arm, .body, .feet, .right_hand, .left_hand, .neck, .head]

/-- An entry dict `{"item": …, "stats": …, "summary": …}`; `stats = none`
models the falsy empty dict stored by `equip_to_slot` when lookup fails. -/
structure EquippedEntry where
  item : String
  stats : Option ItemStats
  summary : String
deriving DecidableEq, Repr

inductive SlotVal where
  | missing | empty | entry (e : EquippedEntry) | junk
deriving DecidableEq, Repr

/-- Level-1 spell slot pool `{"max": …, "current": …}` (the only level the
program ever creates). -/
structure SlotPool where
  max : Int
  current : Int
deriving DecidableEq, Repr

/-- The character dict, restricted to the fields the claimed operations
read or write.  `spell_slots` models the `"1"` entry of the Python
`spell_slots` dict (`none` = the dict is absent, empty, or lacks `"1"`). -/
structure Character where
  name : String := ""
  race_class : String := ""
  str_mod : Int := 0
  dex_mod : Int := 0
  con_mod : Int := 0
  int_mod : Int := 0
  wis_mod : Int := 0
  cha_mod : Int := 0
  current_hp : Int := 0
  morale_sanity : Int := 0
  experience : Int := 0
  inventory : List String := []
  equipped : Option (Slot → SlotVal) := none
  spells_known : List String := []
  spells_prepared : List String := []
  spell_slots : Option SlotPool := none

/-- `char.get("equipped", {}).get(slot)` with the absent-dict case mapped
to `missing`. -/
def eqVal (char : Character) (s : Slot) : SlotVal :=
  match char.equipped with
  | some m => m s
  | none => SlotVal.missing

/-- Per-slot normalization of `ensure_equipped_slots`: a present non-dict
is replaced by `None`, then `setdefault(s, None)` fills absent keys. -/
def fixSlotVal : SlotVal → SlotVal
  | SlotVal.junk => SlotVal.empty
  | SlotVal.missing => SlotVal.empty
  | v => v

/-- `ensure_equipped_slots`. -/
def ensure_equipped_slots (char : Character) : Character :=
  { char with equipped := some (fun s => fixSlotVal (eqVal char s)) }

/-- `unequip_slot`. -/
def unequip_slot (char : Character) (slot : Slot) : Character :=
  let char := ensure_equipped_slots char
  { char with equipped := some (fun s => if s = slot then SlotVal.empty else eqVal char s) }

/-- The canonical-identity key used by `equip_to_slot`'s duplicate sweep:
`(canonicalize_item_name(x) or x).lower()`. -/
def normOf (x : String) : String :=
  pyLower ((canonicalize_item_name x).getD x)

/-- The sweep key of an equipped entry (applied to its `item` field). -/
def entryNormName (e : EquippedEntry) : String :=
  normOf e.item

/-- `stats and stats.get("type")=="weapon" and stats.get("hands",1)==2`. -/
def isTwoHandedWeaponStats : Option ItemStats → Bool
  | some st => st.type == "weapon" && st.hands == 2
  | none => false

/-- `e.get("stats",{}).get("type")=="shield"`. -/
def entryIsShield (e : EquippedEntry) : Bool :=
  match e.stats with
  | some st => st.type == "shield"
  | none => false

/-- The entry dict `{"item": …, "stats": stats or {}, "summary": …}` built
by `equip_to_slot`. -/
def newEntry (item_name : String) : EquippedEntry :=
  ⟨item_name, lookup_item_stats item_name,
   summarize_item item_name (lookup_item_stats item_name)⟩

/-- `other = "left_arm" if slot=="right_arm" else "right_arm"`. -/
def otherArm (slot : Slot) : Slot :=
  if slot = Slot.right_arm then Slot.left_arm else Slot.right_arm

/-- The duplicate-occupancy sweep loop of `equip_to_slot`: clear any slot
whose entry has the same canonical-identity key. -/
def sweepMap (m : Slot → SlotVal) (norm : String) : Slot → SlotVal := fun s =>
  match m s with
  | SlotVal.entry e => if entryNormName e = norm then SlotVal.empty else SlotVal.entry e
  | v => v

/-- `char["equipped"][slot] = entry`. -/
def placeMap (m : Slot → SlotVal) (slot : Slot) (en : EquippedEntry) : Slot → SlotVal :=
  fun s => if s = slot then SlotVal.entry en else m s

/-- The shield-eviction loop of `equip_to_slot` over the two arm slots.
Python's `e is not entry` (object identity) is modelled as value
inequality, equivalent here because an evicted value must be shield-typed
while `entry` in that branch is weapon-typed. -/
def evictShieldMap (m : Slot → SlotVal) (en : EquippedEntry) : Slot → SlotVal :=
  fun s =>
    if s = Slot.left_arm ∨ s = Slot.right_arm then
      match m s with
      | SlotVal.entry e =>
        if entryIsShield e && e != en then SlotVal.empty else SlotVal.entry e
      | v => v
    else m s

/-- `equip_to_slot`: `ensure_equipped_slots`, then the sweep, placement,
two-handed mirroring, and shield eviction, each a pointwise update. -/
def equip_to_slot (char : Character) (slot : Slot) (item_name : String) : Character :=
  let char := ensure_equipped_slots char
  let stats := lookup_item_stats item_name
  let m1 := sweepMap (eqVal char) (normOf item_name)
  let entry := newEntry item_name
  let m2 := placeMap m1 slot entry
  if isTwoHandedWeaponStats stats then
    let m3 := placeMap m2 (otherArm slot) entry
    { char with equipped := some (evictShieldMap m3 entry) }
  else
    { char with equipped := some m2 }

/-! ### `auto_equip_defaults`, decomposed into its successive blocks -/

/-- Python dict truthiness of a slot value (entry dicts are non-empty,
hence truthy; `None` is falsy).  `junk` never survives
`ensure_equipped_slots`, which precedes every use. -/
def slotTruthy : SlotVal → Bool
  | SlotVal.entry _ => true
  | _ => false

/-- The body-armor candidate ranking list (used only as a membership set
by `first_srd_match`). -/
def BODY_ORDER : List String :=
  ["plate", "splint", "chain mail", "half plate", "scale mail", "chain shirt",
   "studded leather", "leather armor"]

/-- Equip the first inventory item satisfying `pred` into `slot` (the
shared `for raw in inv: … break` shape of every `auto_equip_defaults`
block). -/
def equipFirst (char : Character) (slot : Slot) (pred : String → Bool) : Character :=
  match char.inventory.find? pred with
  | some raw => equip_to_slot char slot raw
  | none => char

/-- The body-block candidate test of `first_srd_match(order)`. -/
def bodyCand (raw : String) : Bool :=
  match canonicalize_item_name raw with
  | some canon => BODY_ORDER.contains canon
  | none => false

/-- `st_ and st_.get("type")=="weapon"`. -/
def weaponPred (raw : String) : Bool :=
  match lookup_item_stats raw with
  | some st => st.type == "weapon"
  | none => false

/-- `st_ and st_.get("type")=="shield"`. -/
def shieldPred (raw : String) : Bool :=
  match lookup_item_stats raw with
  | some st => st.type == "shield"
  | none => false

/-- `"boots" in (canonicalize_item_name(raw) or "")`. -/
def feetPred (raw : String) : Bool :=
  strMem "boots" ((canonicalize_item_name raw).getD "")

/-- Neck tests; the two `if`/`break` lines fire on the same first
matching item, so they fold into one predicate. -/
def neckPred (raw : String) : Bool :=
  let can := (canonicalize_item_name raw).getD ""
  can == "amulet" || strMem "necklace" can || strMem "pendant" can ||
    strMem "torc" can

/-- The raw-name keyword part of the head test (`"helmet" in raw.lower()
or "hood" in raw.lower() or "cap" in raw.lower()`). -/
def headTrigger (raw : String) : Bool :=
  strMem "helmet" (pyLower raw) || strMem "hood" (pyLower raw) ||
    strMem "cap" (pyLower raw)

/-- Head tests (canonical `helm`, else raw keyword match). -/
def headPred (raw : String) : Bool :=
  let can := (canonicalize_item_name raw).getD ""
  can == "helm" || headTrigger raw

/-- `"ring" in (canonicalize_item_name(raw) or raw.lower())`. -/
def ringTrigger (raw : String) : Bool :=
  strMem "ring" ((canonicalize_item_name raw).getD (pyLower raw))

/-- Left-hand ring test; the right-hand access inside the condition is
guarded by that slot's truthiness. -/
def leftRingPred (char : Character) (raw : String) : Bool :=
  let can := (canonicalize_item_name raw).getD (pyLower raw)
  let rhOk :=
    match eqVal char Slot.right_hand with
    | SlotVal.entry e => pyLower ((canonicalize_item_name e.item).getD "") != can
    | _ => true
  strMem "ring" can && rhOk

/-- `first_srd_match(order)` + body equip block of `auto_equip_defaults`. -/
def autoBody (char : Character) : Character :=
  if slotTruthy (eqVal char Slot.body) then char
  else equipFirst char Slot.body bodyCand

/-- Right-arm weapon block of `auto_equip_defaults`. -/
def autoRightArm (char : Character) : Character :=
  if slotTruthy (eqVal char Slot.right_arm) then char
  else equipFirst char Slot.right_arm weaponPred

/-- Left-arm shield block of `auto_equip_defaults`. -/
def autoLeftArm (char : Character) : Character :=
  let right_two_handed :=
    match eqVal char Slot.right_arm with
    | SlotVal.entry e =>
      match e.stats with
      | some st => st.type == "weapon" && st.hands == 2
      | none => false
    | _ => false
  if !right_two_handed && !slotTruthy (eqVal char Slot.left_arm) then
    equipFirst char Slot.left_arm shieldPred
  else char

/-- Feet block of `auto_equip_defaults`. -/
def autoFeet (char : Character) : Character :=
  if slotTruthy (eqVal char Slot.feet) then char
  else equipFirst char Slot.feet feetPred

/-- Neck block of `auto_equip_defaults`. -/
def autoNeck (char : Character) : Character :=
  if slotTruthy (eqVal char Slot.neck) then char
  else equipFirst char Slot.neck neckPred

/-- Head block of `auto_equip_defaults`. -/
def autoHead (char : Character) : Character :=
  if slotTruthy (eqVal char Slot.head) then char
  else equipFirst char Slot.head headPred

/-- Right-hand ring block of `auto_equip_defaults`. -/
def autoRightHand (char : Character) : Character :=
  if slotTruthy (eqVal char Slot.right_hand) then char
  else equipFirst char Slot.right_hand ringTrigger

/-- Left-hand ring block of `auto_equip_defaults`. -/
def autoLeftHand (char : Character) : Character :=
  if slotTruthy (eqVal char Slot.left_hand) then char
  else equipFirst char Slot.left_hand (leftRingPred char)

/-- `auto_equip_defaults`: `ensure_equipped_slots` followed by the eight
slot blocks in source order. -/
def auto_equip_defaults (char : Character) : Character :=
  autoLeftHand (autoRightHand (autoHead (autoNeck (autoFeet (autoLeftArm
    (autoRightArm (autoBody (ensure_equipped_slots char))))))))

/-! ### Derived stats: armor class -/

/-- The `shield_bonus` loop of `compute_ac`: fold `max` over the shield
`ac_bonus` of both arm slots, starting from `0`. -/
def computeShieldBonus (char : Character) : Int :=
  [Slot.left_arm, Slot.right_arm].foldl
    (fun acc arm =>
      match eqVal char arm with
      | SlotVal.entry e =>
        match e.stats with
        | some st => if st.type = "shield" then max acc (st.ac_bonus.getD 0) else acc
        | none => acc
      | _ => acc) 0

/-- `compute_ac`.  Returns `(value, explanation)`.  The body branch reads
`armor_entry["stats"]["armor"]`, which for every catalog armor record is
present; the `getD` default is never exercised by a state the program can
build (Python would raise `KeyError` there). -/
def compute_ac (char : Character) : Int × String :=
  let dex : Int := char.dex_mod
  let core : Int × Int × List String :=
    match eqVal char Slot.body with
    | SlotVal.entry e =>
      match e.stats with
      | some st =>
        if st.type = "armor" then
          let a := st.armor.getD { category := "", base := 0, dex_cap := none }
          let label := pyTitle ((canonicalize_item_name e.item).getD e.item)
          let baseStr := intToPyStr a.base
          match a.dex_cap with
          | none => (a.base, dex, [label ++ " " ++ baseStr, "Dex"])
          | some cap =>
            let capStr := intToPyStr cap
            (a.base, max (min dex cap) (-999),
             [label ++ " " ++ baseStr, s!"Dex (max {capStr})"])
        else (10, dex, ["Base 10", "Dex"])
      | none => (10, dex, ["Base 10", "Dex"])
    | _ => (10, dex, ["Base 10", "Dex"])
  let shield_bonus : Int := computeShieldBonus char
  let source :=
    if shield_bonus ≠ 0 then
      core.2.2 ++ ["Shield +" ++ intToPyStr shield_bonus]
    else core.2.2
  (core.1 + core.2.1 + shield_bonus, joinWith " + " source)

/-! ### Spellcasting subsystem (level 1 only) -/

def WIZARD_SPELLS_L1 : List String :=
  ["Magic Missile", "Shield", "Mage Armor", "Thunderwave", "Chromatic Orb",
   "Grease", "Burning Hands", "Sleep", "Detect Magic", "Identify"]

def CLERIC_SPELLS_L1 : List String :=
  ["Cure Wounds", "Bless", "Shield of Faith", "Guiding Bolt", "Healing Word",
   "Detect Evil and Good", "Sanctuary", "Inflict Wounds",
   "Protection from Evil and Good"]

/-- `CLASS_SPELL_LISTS` with the inner `{"1": …}` level collapsed (level 1
is the only level the table holds). -/
def CLASS_SPELL_LISTS : List (String × List String) :=
  [("Wizard", WIZARD_SPELLS_L1), ("Cleric", CLERIC_SPELLS_L1)]

/-- `CLASS_SLOT_RULES` with the inner `{"1": …}` level collapsed. -/
def CLASS_SLOT_RULES : List (String × Int) :=
  [("Wizard", 2), ("Cleric", 2)]

/-- `get_class_spell_list(cls, 1)`. -/
def get_class_spell_list (cls : String) : List String :=
  ((CLASS_SPELL_LISTS.find? (fun p => p.1 == cls)).map (fun p => p.2)).getD []

/-- `CLASS_SLOT_RULES.get(cls, {}).get("1", d)`. -/
def slotRule (cls : String) (d : Int) : Int :=
  ((CLASS_SLOT_RULES.find? (fun p => p.1 == cls)).map (fun p => p.2)).getD d

def CASTER_KEYWORDS : List (String × String) :=
  [("wizard", "Wizard"), ("cleric", "Cleric")]

/-- `canonical_class`. -/
def canonical_class (name : String) : String :=
  let s := pyLower name
  match CASTER_KEYWORDS.find? (fun kv => strMem kv.1 s) with
  | some kv => kv.2
  | none => pyTitle (pyStrip name)

/-- The membership test of `validate_spells_for_class`'s known-spell
filter: `if s and s.lower() in class_list` (class list lowercased). -/
def knownKeep (cls : String) (s : String) : Bool :=
  s ≠ "" && ((get_class_spell_list cls).map pyLower).contains (pyLower s)

/-- Known-spell normalization block of `validate_spells_for_class`: filter
to the class list, then pad back toward the original count from the class
list.  The `while` loop appends from the head of `pool` until the length
target is met, i.e. a `take`. -/
def validateKnown (cls : String) (ks : List String) : List String :=
  let known0 := ks.filter (knownKeep cls)
  if known0.length < ks.length then
    let originals := ks.length
    let pool := (get_class_spell_list cls).filter (fun x => ¬ known0.contains x)
    known0 ++ pool.take (min originals (get_class_spell_list cls).length - known0.length)
  else known0

/-- The per-class prepared-spell limit of `validate_spells_for_class`. -/
def preparedLimit (cls : String) (intm wism : Int) : Int :=
  if cls = "Wizard" then max 1 (intm + 1)
  else if cls = "Cleric" then max 1 (wism + 1)
  else 2

/-- Prepared-spell block of `validate_spells_for_class`: keep the prepared
spells still known, clamp to the limit, else fall back to a prefix of the
known list.  (`limit ≥ 1` always, so Python's slice is a `take`.) -/
def validatePrepared (limit : Int) (known ps : List String) : List String :=
  let prepared0 := (ps.filter (fun s => known.contains s)).take limit.toNat
  if prepared0.isEmpty then known.take limit.toNat else prepared0

/-- Slot block of `validate_spells_for_class`: create the level-1 pool if
missing, else re-clamp `current` into `[0, max]` with `max` refreshed from
`CLASS_SLOT_RULES`. -/
def validateSlots (cls : String) : Option SlotPool → Option SlotPool
  | none =>
    let m := slotRule cls 0
    some { max := m, current := m }
  | some s =>
    let mx := slotRule cls s.max
    some { max := mx, current := max 0 (min s.current mx) }

/-- `validate_spells_for_class`. -/
def validate_spells_for_class (char : Character) : Character :=
  let cls := canonical_class char.race_class
  let class_list := (get_class_spell_list cls).map pyLower
  if class_list.isEmpty then
    { char with spells_known := [], spells_prepared := [], spell_slots := none }
  else
    let known := validateKnown cls char.spells_known
    let limit := preparedLimit cls char.int_mod char.wis_mod
    let prepared := validatePrepared limit known char.spells_prepared
    let slots := validateSlots cls char.spell_slots
    { char with spells_known := known, spells_prepared := prepared, spell_slots := slots }

/-- `cast_spell`, returning the Python `bool` plus the updated character
(the source mutates `char` in place). -/
def cast_spell (char : Character) (spell_name : String) : Bool × Character :=
  if ¬ char.spells_prepared.contains spell_name then (false, char)
  else
    match char.spell_slots with
    | none => (false, char)
    | some slots =>
      if slots.current ≤ 0 then (false, char)
      else (true, { char with spell_slots := some { slots with current := slots.current - 1 } })

/-! ### Operation sequences (for the invariant claims) -/

/-- One equipment operation. -/
inductive EquipOp where
  | equip (slot : Slot) (item : String)
  | unequip (slot : Slot)

def applyEquipOp (c : Character) : EquipOp → Character
  | EquipOp.equip slot item => equip_to_slot c slot item
  | EquipOp.unequip slot => unequip_slot c slot

def runEquipOps (c : Character) (ops : List EquipOp) : Character :=
  ops.foldl applyEquipOp c

/-- One spellcasting operation (`cast_spell` discarding the returned
bool, or `validate_spells_for_class`). -/
inductive SpellOp where
  | cast (sp : String)
  | validate

def applySpellOp (c : Character) : SpellOp → Character
  | SpellOp.cast sp => (cast_spell c sp).2
  | SpellOp.validate => validate_spells_for_class c

def runSpellOps (c : Character) (ops : List SpellOp) : Character :=
  ops.foldl applySpellOp c

/-! ### Observations used in theorem statements -/

/-- The `item` field of an occupied slot. -/
def valItem : SlotVal → Option String
  | SlotVal.entry e => some e.item
  | _ => none

/-- The canonical-identity key of an occupied slot. -/
def valNorm : SlotVal → Option String
  | SlotVal.entry e => some (entryNormName e)
  | _ => none

/-- Does a slot value hold a shield-typed entry? -/
def entryIsShieldVal : SlotVal → Bool
  | SlotVal.entry e => entryIsShield e
  | _ => false

/-- Does a slot value hold a two-handed weapon entry? -/
def twoHandedVal : SlotVal → Bool
  | SlotVal.entry e => isTwoHandedWeaponStats e.stats
  | _ => false

/-- Is `s` one of the two arm slots? -/
def armSlotB (s : Slot) : Bool :=
  s == Slot.right_arm || s == Slot.left_arm

/-- Spec-side reading of §4.2's shield rule: the `ac_bonus` an arm
contributes (0 when it does not hold a shield). -/
def armShieldBonus (char : Character) (s : Slot) : Int :=
  match eqVal char s with
  | SlotVal.entry e =>
    match e.stats with
    | some st => if st.type = "shield" then st.ac_bonus.getD 0 else 0
    | none => 0
  | _ => 0

/-- Spec-side reading of §4.2's shield rule: if either arm holds a shield,
add the maximum `ac_bonus` across both arms exactly once; otherwise 0. -/
def specShieldTerm (char : Character) : Int :=
  if entryIsShieldVal (eqVal char Slot.left_arm) ||
      entryIsShieldVal (eqVal char Slot.right_arm) then
    max (armShieldBonus char Slot.left_arm) (armShieldBonus char Slot.right_arm)
  else 0

/-- "No body armor" in the sense of `compute_ac`'s branch condition: the
body slot holds no armor-typed entry.  (`junk` is excluded: Python would
raise there rather than take either branch.) -/
def noBodyArmor (char : Character) : Bool :=
  match eqVal char Slot.body with
  | SlotVal.entry e =>
    match e.stats with
    | some st => !(st.type == "armor")
    | none => true
  | SlotVal.empty => true
  | SlotVal.missing => true
  | SlotVal.junk => false

/-- A character whose equipped map exists with every slot present and
holding `None` or an entry dict. -/
def wellFormedEq (c : Character) : Prop :=
  ∃ m, c.equipped = some m ∧
    ∀ s, m s = SlotVal.empty ∨ ∃ e, m s = SlotVal.entry e

/-- All-empty equipped map, no other state. -/
def emptyEqChar : Character :=
  { equipped := some (fun _ => SlotVal.empty) }

/-! ### C5: canonicalization of "rusty +1 Long Sword" -/

/-- C5: `canonicalize_item_name "rusty +1 Long Sword"` does NOT resolve to
the catalog key `"longsword"` (which exists in the catalog): it returns
`none`.  Punctuation stripping deletes the `+` before the stopword filter
runs, so the `"+1"` stopword never matches; the leftover token `"1"`
blocks both the alias lookup (`"long sword"`) and the fuzzy fallback. -/
theorem canonicalize_rusty_long_sword :
    canonicalize_item_name "rusty +1 Long Sword" = none ∧
      srdHasKey "longsword" = true := by
  decide

/-! ### C10: the equipped map is total and well-typed after every operation -/

theorem fixSlotVal_cases (v : SlotVal) :
    fixSlotVal v = SlotVal.empty ∨ ∃ e, fixSlotVal v = SlotVal.entry e := by
  cases v <;> simp [fixSlotVal]

theorem sweepMap_ok (m : Slot → SlotVal) (norm : String)
    (h : ∀ s, m s = SlotVal.empty ∨ ∃ e, m s = SlotVal.entry e) :
    ∀ s, sweepMap m norm s = SlotVal.empty ∨ ∃ e, sweepMap m norm s = SlotVal.entry e := by
  intro s
  rcases h s with h' | ⟨e, h'⟩
  · left; simp [sweepMap, h']
  · simp only [sweepMap, h']
    split
    · exact Or.inl rfl
    · exact Or.inr ⟨e, rfl⟩

theorem placeMap_ok (m : Slot → SlotVal) (slot : Slot) (en : EquippedEntry)
    (h : ∀ s, m s = SlotVal.empty ∨ ∃ e, m s = SlotVal.entry e) :
    ∀ s, placeMap m slot en s = SlotVal.empty ∨ ∃ e, placeMap m slot en s = SlotVal.entry e := by
  intro s
  by_cases hs : s = slot
  · exact Or.inr ⟨en, by simp [placeMap, hs]⟩
  · simpa [placeMap, hs] using h s

theorem evictShieldMap_ok (m : Slot → SlotVal) (en : EquippedEntry)
    (h : ∀ s, m s = SlotVal.empty ∨ ∃ e, m s = SlotVal.entry e) :
    ∀ s, evictShieldMap m en s = SlotVal.empty ∨
      ∃ e, evictShieldMap m en s = SlotVal.entry e := by
  intro s
  by_cases harm : s = Slot.left_arm ∨ s = Slot.right_arm
  · rcases h s with h' | ⟨e, h'⟩
    · left; simp [evictShieldMap, harm, h']
    · simp only [evictShieldMap, if_pos harm, h']
      split
      · exact Or.inl rfl
      · exact Or.inr ⟨e, rfl⟩
  · simpa [evictShieldMap, harm] using h s

/-- C10: after `ensure_equipped_slots`, `unequip_slot`, or `equip_to_slot`,
the equipped map exists, contains every slot, and each slot holds `None`
or an entry dict (never a non-dict value). -/
theorem equipped_always_well_formed (char : Character) (slot : Slot) (item : String) :
    wellFormedEq (ensure_equipped_slots char) ∧
      wellFormedEq (unequip_slot char slot) ∧
      wellFormedEq (equip_to_slot char slot item) := by
  refine ⟨⟨_, rfl, fun s => fixSlotVal_cases _⟩, ⟨_, rfl, fun s => ?_⟩, ?_⟩
  · by_cases h : s = slot
    · left; simp [unequip_slot, h]
    · have := fixSlotVal_cases (eqVal char s)
      simpa [unequip_slot, h, ensure_equipped_slots, eqVal] using this
  · unfold equip_to_slot
    dsimp only
    split
    · exact ⟨_, rfl,
        evictShieldMap_ok _ _ (placeMap_ok _ _ _ (placeMap_ok _ _ _
          (sweepMap_ok _ _ (fun s => fixSlotVal_cases (eqVal char s)))))⟩
    · exact ⟨_, rfl,
        placeMap_ok _ _ _ (sweepMap_ok _ _ (fun s => fixSlotVal_cases (eqVal char s)))⟩

/-! ### C3: cast_spell is transactional -/

/-- C3: `cast_spell` succeeds iff the spell is prepared and the level-1
pool exists with `current > 0`; on success exactly `current` drops by 1
and nothing else changes; on failure the character is unchanged. -/
theorem cast_spell_transactional (char : Character) (sp : String) :
    ((cast_spell char sp).1 = true ↔
      sp ∈ char.spells_prepared ∧
        ∃ pool, char.spell_slots = some pool ∧ 0 < pool.current) ∧
    (∀ pool, char.spell_slots = some pool → (cast_spell char sp).1 = true →
      (cast_spell char sp).2 =
        { char with spell_slots := some { pool with current := pool.current - 1 } }) ∧
    ((cast_spell char sp).1 = false → (cast_spell char sp).2 = char) := by
  by_cases hprep : char.spells_prepared.contains sp
  · have hmem : sp ∈ char.spells_prepared := List.elem_iff.mp hprep
    rcases hslots : char.spell_slots with _ | pool
    · have hc : cast_spell char sp = (false, char) := by
        simp [cast_spell, hprep, hmem, hslots]
      refine ⟨?_, ?_, ?_⟩
      · rw [hc]
        exact iff_of_false (by simp) (by rintro ⟨-, p, hp, -⟩; cases hp)
      · intro p hp
        cases hp
      · intro _; rw [hc]
    · by_cases hcur : pool.current ≤ 0
      · have hc : cast_spell char sp = (false, char) := by
          simp [cast_spell, hprep, hmem, hslots, hcur]
        refine ⟨?_, ?_, ?_⟩
        · rw [hc]
          refine iff_of_false (by simp) ?_
          rintro ⟨-, p, hp, hlt⟩
          cases hp
          omega
        · intro p hp htrue
          rw [hc] at htrue
          cases htrue
        · intro _; rw [hc]
      · have hc : cast_spell char sp =
            (true, { char with spell_slots := some { pool with current := pool.current - 1 } }) := by
          simp [cast_spell, hprep, hmem, hslots, hcur]
        refine ⟨?_, ?_, ?_⟩
        · rw [hc]
          constructor
          · intro _
            refine ⟨hmem, pool, ?_, ?_⟩
            · first
              | exact hslots
              | rfl
            · omega
          · intro _
            rfl
        · intro p hp htrue
          cases hp
          rw [hc]
        · intro hfalse
          rw [hc] at hfalse
          cases hfalse
  · have hmem : sp ∉ char.spells_prepared := fun h => hprep (List.elem_iff.mpr h)
    have hc : cast_spell char sp = (false, char) := by
      simp only [cast_spell, if_pos hprep]
    refine ⟨?_, ?_, ?_⟩
    · rw [hc]
      exact iff_of_false (by simp) (fun h => absurd h.1 hmem)
    · intro p hp htrue
      rw [hc] at htrue
      cases htrue
    · intro _; rw [hc]

/-- A prepared wizard used as the concrete input of C3's witness. -/
def c3Witness : Character :=
  { race_class := "Wizard", int_mod := 2,
    spells_known := ["Magic Missile", "Shield", "Mage Armor", "Thunderwave"],
    spells_prepared := ["Magic Missile", "Shield", "Mage Armor"],
    spell_slots := some ⟨2, 2⟩ }

theorem cast_spell_transactional_witness :
    (cast_spell c3Witness "Magic Missile").1 = true ∧
      (cast_spell c3Witness "Magic Missile").2.spell_slots = some ⟨2, 1⟩ := by
  have h := cast_spell_transactional c3Witness "Magic Missile"
  have htrue : (cast_spell c3Witness "Magic Missile").1 = true :=
    h.1.mpr ⟨by decide, ⟨2, 2⟩, rfl, by decide⟩
  have hstate := h.2.1 ⟨2, 2⟩ rfl htrue
  refine ⟨htrue, ?_⟩
  rw [hstate]
  decide

/-! ### C2: equipping a two-handed weapon -/

/-- C2: equipping a two-handed weapon into either arm slot leaves the
identical new entry in both arm slots, and neither arm holds a shield
afterwards. -/
theorem equip_two_handed_mirrors (char : Character) (slot : Slot) (item : String)
    (st : ItemStats) (hslot : slot = Slot.right_arm ∨ slot = Slot.left_arm)
    (hst : lookup_item_stats item = some st) (hw : st.type = "weapon")
    (hh : st.hands = 2) :
    eqVal (equip_to_slot char slot item) Slot.right_arm = SlotVal.entry (newEntry item) ∧
      eqVal (equip_to_slot char slot item) Slot.left_arm = SlotVal.entry (newEntry item) ∧
      entryIsShieldVal (eqVal (equip_to_slot char slot item) Slot.right_arm) = false ∧
      entryIsShieldVal (eqVal (equip_to_slot char slot item) Slot.left_arm) = false := by
  have h2H : isTwoHandedWeaponStats (lookup_item_stats item) = true := by
    rw [hst]; simp [isTwoHandedWeaponStats, hw, hh]
  have hnosh : entryIsShield (newEntry item) = false := by
    simp [entryIsShield, newEntry, hst, hw]
  have harm : ∀ arm, arm = Slot.left_arm ∨ arm = Slot.right_arm →
      eqVal (equip_to_slot char slot item) arm = SlotVal.entry (newEntry item) := by
    intro arm ha
    unfold equip_to_slot
    dsimp only
    rw [if_pos h2H]
    have hm3 : placeMap
        (placeMap (sweepMap (eqVal (ensure_equipped_slots char)) (normOf item))
          slot (newEntry item)) (otherArm slot) (newEntry item) arm
        = SlotVal.entry (newEntry item) := by
      rcases hslot with rfl | rfl <;> rcases ha with rfl | rfl <;>
        simp [placeMap, otherArm]
    simp [eqVal, evictShieldMap, ha, hm3, hnosh]
  refine ⟨harm _ (Or.inr rfl), harm _ (Or.inl rfl), ?_, ?_⟩
  · rw [harm _ (Or.inr rfl)]; simp [entryIsShieldVal, hnosh]
  · rw [harm _ (Or.inl rfl)]; simp [entryIsShieldVal, hnosh]

/-- The greatsword catalog record, for C2's witness. -/
def greatswordStats : ItemStats :=
  { type := "weapon", hands := 2, damage := some "2d6",
    properties := ["heavy", "two-handed"] }

theorem equip_two_handed_mirrors_witness :
    eqVal (equip_to_slot emptyEqChar Slot.right_arm "greatsword") Slot.right_arm
        = SlotVal.entry (newEntry "greatsword") ∧
      eqVal (equip_to_slot emptyEqChar Slot.right_arm "greatsword") Slot.left_arm
        = SlotVal.entry (newEntry "greatsword") := by
  have h := equip_two_handed_mirrors emptyEqChar Slot.right_arm "greatsword"
    greatswordStats (Or.inl rfl) (by decide) rfl rfl
  exact ⟨h.1, h.2.1⟩

/-! ### Counterexample states -/

/-- Plate armor on the body, dex −5, arms empty. -/
def acCexChar : Character :=
  { dex_mod := -5,
    equipped := some (fun s =>
      if s = Slot.body then SlotVal.entry (newEntry "plate") else SlotVal.empty) }

/-- C1 counterexample: plate is heavy armor with base 18, but at dex −5
`compute_ac` returns 13, not the claimed `base` alone (= 18): heavy armor
does not zero out a negative dex modifier. -/
theorem compute_ac_heavy_negative_dex :
    (compute_ac acCexChar).1 = 13 ∧ (compute_ac acCexChar).1 ≠ 18 := by
  decide

/-- Character that equipped a greatsword into the right arm. -/
def c6Mid : Character := equip_to_slot emptyEqChar Slot.right_arm "greatsword"

/-- C6 counterexample: after unequipping the right arm that held a
two-handed weapon, the mirrored entry is still in the left arm — the two
arm slots do not clear together. -/
theorem unequip_leaves_mirrored_arm :
    twoHandedVal (eqVal c6Mid Slot.right_arm) = true ∧
      eqVal (unequip_slot c6Mid Slot.right_arm) Slot.right_arm = SlotVal.empty ∧
      eqVal (unequip_slot c6Mid Slot.right_arm) Slot.left_arm
        = SlotVal.entry (newEntry "greatsword") := by
  decide

/-- C7 counterexample state: equip a greatsword into the body slot,
starting from an all-empty equipped map. -/
def c7Cex : Character :=
  runEquipOps emptyEqChar [EquipOp.equip Slot.body "greatsword"]

/-- C7 counterexample: one `equip` reaches a state where the same item
(by canonical identity) occupies `body` and `right_arm` — two slots that
are not the `right_arm`/`left_arm` pair. -/
theorem two_handed_duplicates_outside_arms :
    valNorm (eqVal c7Cex Slot.body) = some "greatsword" ∧
      valNorm (eqVal c7Cex Slot.right_arm) = some "greatsword" ∧
      armSlotB Slot.body = false := by
  decide

/-- Inventory where the best-AC armor (plate, base 18) is listed after a
weaker armor (leather, base 11). -/
def c9Cex : Character :=
  { inventory := ["leather armor", "plate"],
    equipped := some (fun _ => SlotVal.empty) }

/-- C9 counterexample: `auto_equip_defaults` fills the body slot with the
first inventory match (`leather armor`), not the best-armor-class
candidate (`plate`, which is also a catalog candidate). -/
theorem auto_equip_body_not_best :
    valItem (eqVal (auto_equip_defaults c9Cex) Slot.body) = some "leather armor" ∧
      bodyCand "plate" = true ∧
      valItem (eqVal (auto_equip_defaults c9Cex) Slot.body) ≠ some "plate" := by
  decide

/-! ### C4: pool bounds under cast/validate sequences -/

/-- The §3 invariant on the level-1 pool: `0 ≤ current ≤ max` whenever the
pool exists. -/
def poolInv (c : Character) : Prop :=
  ∀ pool, c.spell_slots = some pool → 0 ≤ pool.current ∧ pool.current ≤ pool.max

theorem spell_list_cases (cls : String) :
    get_class_spell_list cls = [] ∨ cls = "Wizard" ∨ cls = "Cleric" := by
  by_cases h1 : cls = "Wizard"
  · exact Or.inr (Or.inl h1)
  by_cases h2 : cls = "Cleric"
  · exact Or.inr (Or.inr h2)
  left
  have hb1 : ("Wizard" == cls) = false := beq_eq_false_iff_ne.mpr (Ne.symm h1)
  have hb2 : ("Cleric" == cls) = false := beq_eq_false_iff_ne.mpr (Ne.symm h2)
  simp [get_class_spell_list, CLASS_SPELL_LISTS, List.find?, hb1, hb2]

theorem slotRule_caster (cls : String) (d : Int)
    (h : cls = "Wizard" ∨ cls = "Cleric") : slotRule cls d = 2 := by
  rcases h with rfl | rfl <;> rfl

theorem validateSlots_inv (cls : String) (h : cls = "Wizard" ∨ cls = "Cleric")
    (sIn : Option SlotPool) :
    ∀ pool, validateSlots cls sIn = some pool →
      0 ≤ pool.current ∧ pool.current ≤ pool.max := by
  intro pool hp
  cases sIn with
  | none =>
    simp only [validateSlots, slotRule_caster cls 0 h, Option.some.injEq] at hp
    rw [← hp]
    decide
  | some s =>
    simp only [validateSlots, slotRule_caster cls s.max h, Option.some.injEq] at hp
    rw [← hp]
    constructor
    · simp
    · simp only
      omega

/-- `validate_spells_for_class` re-establishes the pool bounds
unconditionally. -/
theorem validate_poolInv (c : Character) : poolInv (validate_spells_for_class c) := by
  unfold validate_spells_for_class
  dsimp only
  split
  · intro pool hp
    cases hp
  · rename_i hne
    rcases spell_list_cases (canonical_class c.race_class) with hempty | hwc
    · exact absurd (by simp [hempty]) hne
    · intro pool hp
      exact validateSlots_inv _ hwc _ pool hp

/-- `cast_spell` preserves the pool bounds. -/
theorem cast_poolInv (c : Character) (sp : String) (h : poolInv c) :
    poolInv (cast_spell c sp).2 := by
  by_cases hprep : c.spells_prepared.contains sp
  · have hmem : sp ∈ c.spells_prepared := List.elem_iff.mp hprep
    rcases hslots : c.spell_slots with _ | pool
    · have hc : cast_spell c sp = (false, c) := by
        simp [cast_spell, hprep, hmem, hslots]
      rw [hc]; exact h
    · by_cases hcur : pool.current ≤ 0
      · have hc : cast_spell c sp = (false, c) := by
          simp [cast_spell, hprep, hmem, hslots, hcur]
        rw [hc]; exact h
      · have hc : cast_spell c sp =
            (true, { c with spell_slots := some { pool with current := pool.current - 1 } }) := by
          simp [cast_spell, hprep, hmem, hslots, hcur]
        rw [hc]
        intro p hp
        cases hp
        have hbounds := h pool hslots
        constructor
        · simp only
          omega
        · simp only
          omega
  · have hc : cast_spell c sp = (false, c) := by
      simp only [cast_spell, if_pos hprep]
    rw [hc]; exact h

/-- C4: starting from any character whose level-1 pool satisfies
`0 ≤ current ≤ max`, every finite sequence of `cast_spell` and
`validate_spells_for_class` calls keeps `0 ≤ current ≤ max`. -/
theorem spell_ops_preserve_pool_bounds (c : Character) (h : poolInv c)
    (ops : List SpellOp) : poolInv (runSpellOps c ops) := by
  induction ops generalizing c with
  | nil => exact h
  | cons op rest ih =>
    cases op with
    | cast sp => exact ih _ (cast_poolInv c sp h)
    | validate => exact ih _ (validate_poolInv c)

/-- A concrete cast/validate/cast sequence for C4's witness. -/
def c4Ops : List SpellOp :=
  [SpellOp.cast "Magic Missile", SpellOp.validate, SpellOp.cast "Shield"]

theorem spell_ops_preserve_pool_bounds_witness :
    poolInv (runSpellOps c3Witness c4Ops) := by
  have hinv : poolInv c3Witness := by
    intro pool hp
    injection hp with h
    rw [← h]
    decide
  exact spell_ops_preserve_pool_bounds c3Witness hinv c4Ops

/-! ### C6 (amended): unequip clears exactly the given slot -/

/-- C6 (amended): `unequip_slot` normalizes the equipped map and clears
exactly the given slot; every other slot keeps its normalized value — in
particular the mirrored copy of a two-handed weapon stays in the other
arm. -/
theorem unequip_clears_exactly_slot (char : Character) (slot : Slot) :
    eqVal (unequip_slot char slot) slot = SlotVal.empty ∧
      ∀ s, s ≠ slot →
        eqVal (unequip_slot char slot) s = eqVal (ensure_equipped_slots char) s := by
  constructor
  · simp [unequip_slot, eqVal]
  · intro s hs
    simp [unequip_slot, eqVal, hs]

theorem unequip_clears_exactly_slot_witness :
    eqVal (unequip_slot c6Mid Slot.right_arm) Slot.right_arm = SlotVal.empty ∧
      eqVal (unequip_slot c6Mid Slot.right_arm) Slot.left_arm
        = eqVal (ensure_equipped_slots c6Mid) Slot.left_arm :=
  ⟨(unequip_clears_exactly_slot c6Mid Slot.right_arm).1,
   (unequip_clears_exactly_slot c6Mid Slot.right_arm).2 Slot.left_arm (by decide)⟩

/-! ### C1 (amended): the armor class table -/

theorem noshield_bonus_zero (char : Character) (s : Slot)
    (h : entryIsShieldVal (eqVal char s) = false) : armShieldBonus char s = 0 := by
  unfold armShieldBonus
  unfold entryIsShieldVal at h
  rcases hv : eqVal char s with _ | _ | e | _ <;> simp only [hv] at h ⊢ <;> try rfl
  rcases hst : e.stats with _ | st <;> simp only [hst] <;> try rfl
  unfold entryIsShield at h
  simp only [hst, beq_eq_false_iff_ne] at h
  rw [if_neg h]

theorem shield_bonus_arm_step (char : Character) (acc : Int) (arm : Slot) :
    (match eqVal char arm with
      | SlotVal.entry e =>
        match e.stats with
        | some st => if st.type = "shield" then max acc (st.ac_bonus.getD 0) else acc
        | none => acc
      | _ => acc) =
      if entryIsShieldVal (eqVal char arm) then max acc (armShieldBonus char arm) else acc := by
  unfold entryIsShieldVal armShieldBonus entryIsShield
  rcases hv : eqVal char arm with _ | _ | e | _ <;> simp only [hv] <;> try simp
  rcases hst : e.stats with _ | st <;> simp only [hst] <;> try simp
  by_cases hty : st.type = "shield"
  · simp [hty]
  · simp [hty]

/-- The `shield_bonus` fold of `compute_ac` equals the spec-side shield
term when arm shield bonuses are non-negative (they are `+2` for every
catalog shield). -/
theorem shield_fold_eq_spec (char : Character)
    (hsl : 0 ≤ armShieldBonus char Slot.left_arm)
    (hsr : 0 ≤ armShieldBonus char Slot.right_arm) :
    computeShieldBonus char = specShieldTerm char := by
  unfold computeShieldBonus specShieldTerm
  simp only [List.foldl_cons, List.foldl_nil]
  rw [shield_bonus_arm_step char 0 Slot.left_arm]
  by_cases hl : entryIsShieldVal (eqVal char Slot.left_arm) <;>
    by_cases hr : entryIsShieldVal (eqVal char Slot.right_arm)
  · rw [if_pos hl]
    rw [shield_bonus_arm_step char _ Slot.right_arm, if_pos hr, if_pos (by simp [hl, hr])]
    omega
  · rw [if_pos hl]
    rw [shield_bonus_arm_step char _ Slot.right_arm, if_neg hr, if_pos (by simp [hl])]
    have h0 := noshield_bonus_zero char Slot.right_arm (by simpa using hr)
    omega
  · rw [if_neg hl]
    rw [shield_bonus_arm_step char 0 Slot.right_arm, if_pos hr, if_pos (by simp [hr])]
    have h0 := noshield_bonus_zero char Slot.left_arm (by simpa using hl)
    omega
  · rw [if_neg hl]
    rw [shield_bonus_arm_step char 0 Slot.right_arm, if_neg hr,
      if_neg (by simp [hl, hr])]

/-- C1 (amended): `compute_ac` matches §4.2's table with one correction —
for capped armor (`medium` cap 2, `heavy` cap 0) the dex term is
`min(dex, cap)`, so heavy armor still takes a NEGATIVE dex penalty rather
than contributing zero.  No body armor gives `10 + dex`; uncapped (light)
armor gives `base + dex`; the maximum shield `ac_bonus` across both arms
is added exactly once. -/
theorem compute_ac_matches_table (char : Character)
    (hd1 : -5 ≤ char.dex_mod) (hd2 : char.dex_mod ≤ 10)
    (hsl : 0 ≤ armShieldBonus char Slot.left_arm)
    (hsr : 0 ≤ armShieldBonus char Slot.right_arm) :
    (noBodyArmor char = true →
      (compute_ac char).1 = 10 + char.dex_mod + specShieldTerm char) ∧
    (∀ e st a, eqVal char Slot.body = SlotVal.entry e → e.stats = some st →
      st.type = "armor" → st.armor = some a →
      ((a.dex_cap = none →
          (compute_ac char).1 = a.base + char.dex_mod + specShieldTerm char) ∧
        (∀ cap, a.dex_cap = some cap → 0 ≤ cap →
          (compute_ac char).1 = a.base + min char.dex_mod cap + specShieldTerm char))) := by
  have hsb := shield_fold_eq_spec char hsl hsr
  constructor
  · intro hnb
    unfold noBodyArmor at hnb
    unfold compute_ac
    dsimp only
    rcases hv : eqVal char Slot.body with _ | _ | e | _ <;>
      simp only [hv] at hnb <;> dsimp only
    · rw [hsb]
    · rw [hsb]
    · rcases hst : e.stats with _ | st <;> simp only [hst] at hnb <;> dsimp only
      · rw [hsb]
      · have hty : ¬ st.type = "armor" := by simpa using hnb
        rw [if_neg hty]
        dsimp only
        rw [hsb]
    · simp at hnb
  · intro e st a hv hst hty harm
    unfold compute_ac
    dsimp only
    simp only [hv, hst, harm, if_pos hty, Option.getD_some]
    constructor
    · intro hcap
      simp only [hcap]
      rw [hsb]
    · intro cap hcap hcap0
      simp only [hcap]
      rw [hsb]
      have hmm : max (min char.dex_mod cap) (-999) = min char.dex_mod cap := by
        omega
      rw [hmm]

/-- Chain shirt (medium, base 13, cap 2) with a shield and dex 3, for
C1's witness. -/
def c1Witness : Character :=
  { dex_mod := 3,
    equipped := some (fun s =>
      if s = Slot.body then SlotVal.entry (newEntry "chain shirt")
      else if s = Slot.left_arm then SlotVal.entry (newEntry "shield")
      else SlotVal.empty) }

theorem compute_ac_matches_table_witness :
    (compute_ac c1Witness).1 = 17 := by
  have h := (compute_ac_matches_table c1Witness (by decide) (by decide)
      (by decide) (by decide)).2 (newEntry "chain shirt")
      { type := "armor", hands := 0,
        armor := some { category := "medium", base := 13, dex_cap := some 2 } }
      { category := "medium", base := 13, dex_cap := some 2 }
      (by decide) (by decide) rfl rfl
  have h2 := h.2 2 rfl (by decide)
  rw [h2]
  decide

/-! ### C8: validate is idempotent -/

theorem validate_race_class (c : Character) :
    (validate_spells_for_class c).race_class = c.race_class := by
  unfold validate_spells_for_class
  dsimp only
  split <;> rfl

theorem validate_int_mod (c : Character) :
    (validate_spells_for_class c).int_mod = c.int_mod := by
  unfold validate_spells_for_class
  dsimp only
  split <;> rfl

theorem validate_wis_mod (c : Character) :
    (validate_spells_for_class c).wis_mod = c.wis_mod := by
  unfold validate_spells_for_class
  dsimp only
  split <;> rfl

theorem validate_known_eq (c : Character) :
    (validate_spells_for_class c).spells_known =
      (if ((get_class_spell_list (canonical_class c.race_class)).map pyLower).isEmpty then
        ([] : List String)
      else validateKnown (canonical_class c.race_class) c.spells_known) := by
  unfold validate_spells_for_class
  dsimp only
  split <;> rfl

theorem validate_prepared_eq (c : Character) :
    (validate_spells_for_class c).spells_prepared =
      (if ((get_class_spell_list (canonical_class c.race_class)).map pyLower).isEmpty then
        ([] : List String)
      else
        validatePrepared
          (preparedLimit (canonical_class c.race_class) c.int_mod c.wis_mod)
          (validateKnown (canonical_class c.race_class) c.spells_known)
          c.spells_prepared) := by
  unfold validate_spells_for_class
  dsimp only
  split <;> rfl

theorem validate_slots_eq (c : Character) :
    (validate_spells_for_class c).spell_slots =
      (if ((get_class_spell_list (canonical_class c.race_class)).map pyLower).isEmpty then
        none
      else validateSlots (canonical_class c.race_class) c.spell_slots) := by
  unfold validate_spells_for_class
  dsimp only
  split <;> rfl

/-- Every spell on a caster class's list passes the validate filter. -/
theorem class_list_all_keep (cls : String) (h : cls = "Wizard" ∨ cls = "Cleric") :
    ∀ x ∈ get_class_spell_list cls, knownKeep cls x = true := by
  rcases h with rfl | rfl <;> decide

theorem validateKnown_all_keep (cls : String) (h : cls = "Wizard" ∨ cls = "Cleric")
    (ks : List String) :
    ∀ x ∈ validateKnown cls ks, knownKeep cls x = true := by
  intro x hx
  unfold validateKnown at hx
  by_cases hlen : (ks.filter (knownKeep cls)).length < ks.length
  · rw [if_pos hlen] at hx
    rcases List.mem_append.mp hx with hx | hx
    · exact List.of_mem_filter hx
    · have hx2 : x ∈ (get_class_spell_list cls).filter
          (fun y => ¬ (ks.filter (knownKeep cls)).contains y) :=
        List.take_subset _ _ hx
      exact class_list_all_keep cls h x (List.mem_of_mem_filter hx2)
  · rw [if_neg hlen] at hx
    exact List.of_mem_filter hx

/-- A list every element of which passes the filter is a fixed point of
`validateKnown`. -/
theorem validateKnown_fixed (cls : String) (ks : List String)
    (hk : ks.filter (knownKeep cls) = ks) : validateKnown cls ks = ks := by
  unfold validateKnown
  rw [hk]
  rw [if_neg (lt_irrefl _)]

theorem validateKnown_idem (cls : String) (h : cls = "Wizard" ∨ cls = "Cleric")
    (ks : List String) :
    validateKnown cls (validateKnown cls ks) = validateKnown cls ks :=
  validateKnown_fixed cls _ (List.filter_eq_self.mpr (validateKnown_all_keep cls h ks))

theorem validatePrepared_mem (limit : Int) (known ps : List String) :
    ∀ x ∈ validatePrepared limit known ps, known.contains x = true := by
  intro x hx
  unfold validatePrepared at hx
  by_cases hp0 : ((ps.filter (fun s => known.contains s)).take limit.toNat).isEmpty
  · rw [if_pos hp0] at hx
    exact List.elem_iff.mpr (List.take_subset _ _ hx)
  · rw [if_neg hp0] at hx
    exact List.of_mem_filter (List.take_subset _ _ hx)

theorem validatePrepared_len (limit : Int) (known ps : List String) :
    (validatePrepared limit known ps).length ≤ limit.toNat := by
  unfold validatePrepared
  by_cases hp0 : ((ps.filter (fun s => known.contains s)).take limit.toNat).isEmpty
  · rw [if_pos hp0]
    exact List.length_take_le _ _
  · rw [if_neg hp0]
    exact List.length_take_le _ _

/-- A list that passes the prepared filter and length bound is a fixed
point of `validatePrepared`, provided the empty-fallback agrees. -/
theorem validatePrepared_fixed (limit : Int) (known P : List String)
    (hfilter : P.filter (fun s => known.contains s) = P)
    (hlen : P.length ≤ limit.toNat)
    (hne : P ≠ [] ∨ known.take limit.toNat = []) :
    validatePrepared limit known P = P := by
  unfold validatePrepared
  dsimp only
  rw [hfilter, List.take_of_length_le hlen]
  by_cases hPe : P.isEmpty
  · rw [if_pos hPe]
    have hP : P = [] := by
      cases P
      · rfl
      · cases hPe
    rcases hne with hne | hne
    · exact absurd hP hne
    · rw [hne, hP]
  · rw [if_neg hPe]

theorem validatePrepared_idem (limit : Int) (known ps : List String) :
    validatePrepared limit known (validatePrepared limit known ps)
      = validatePrepared limit known ps := by
  refine validatePrepared_fixed limit known _
    (List.filter_eq_self.mpr (validatePrepared_mem limit known ps))
    (validatePrepared_len limit known ps) ?_
  by_cases hPe : (validatePrepared limit known ps).isEmpty
  · right
    have hP : validatePrepared limit known ps = [] := by
      cases hl : validatePrepared limit known ps
      · rfl
      · rw [hl] at hPe
        cases hPe
    unfold validatePrepared at hP
    dsimp only at hP
    by_cases hp0 : ((ps.filter (fun s => known.contains s)).take limit.toNat).isEmpty
    · rw [if_pos hp0] at hP
      exact hP
    · rw [if_neg hp0] at hP
      rw [hP] at hp0
      cases hp0 rfl
  · left
    intro hP
    rw [hP] at hPe
    exact hPe rfl

theorem validateSlots_idem (cls : String) (h : cls = "Wizard" ∨ cls = "Cleric")
    (sIn : Option SlotPool) :
    validateSlots cls (validateSlots cls sIn) = validateSlots cls sIn := by
  cases sIn with
  | none =>
    dsimp only [validateSlots]
    rw [slotRule_caster _ _ h, slotRule_caster _ _ h]
    have hcur : max 0 (min (2 : Int) 2) = 2 := by omega
    rw [hcur]
  | some s =>
    dsimp only [validateSlots]
    rw [slotRule_caster _ _ h, slotRule_caster _ _ h]
    have hcur : max 0 (min (max 0 (min s.current 2)) 2) = max 0 (min s.current 2) := by
      omega
    rw [hcur]

/-- C8: `validate_spells_for_class` is idempotent on the spell state
(`spells_known`, `spells_prepared`, `spell_slots`). -/
theorem validate_idempotent (char : Character) :
    (validate_spells_for_class (validate_spells_for_class char)).spells_known
        = (validate_spells_for_class char).spells_known ∧
      (validate_spells_for_class (validate_spells_for_class char)).spells_prepared
        = (validate_spells_for_class char).spells_prepared ∧
      (validate_spells_for_class (validate_spells_for_class char)).spell_slots
        = (validate_spells_for_class char).spell_slots := by
  have hrc := validate_race_class char
  have hint := validate_int_mod char
  have hwis := validate_wis_mod char
  by_cases hemp :
      ((get_class_spell_list (canonical_class char.race_class)).map pyLower).isEmpty
  · refine ⟨?_, ?_, ?_⟩
    · rw [validate_known_eq (validate_spells_for_class char), hrc, if_pos hemp,
        validate_known_eq char, if_pos hemp]
    · rw [validate_prepared_eq (validate_spells_for_class char), hrc, if_pos hemp,
        validate_prepared_eq char, if_pos hemp]
    · rw [validate_slots_eq (validate_spells_for_class char), hrc, if_pos hemp,
        validate_slots_eq char, if_pos hemp]
  · have hwc : canonical_class char.race_class = "Wizard" ∨
        canonical_class char.race_class = "Cleric" := by
      rcases spell_list_cases (canonical_class char.race_class) with hnil | hwc
      · exact absurd (by simp [hnil]) hemp
      · exact hwc
    refine ⟨?_, ?_, ?_⟩
    · rw [validate_known_eq (validate_spells_for_class char), hrc, if_neg hemp,
        validate_known_eq char, if_neg hemp]
      exact validateKnown_idem _ hwc _
    · rw [validate_prepared_eq (validate_spells_for_class char), hrc, hint, hwis,
        if_neg hemp, validate_known_eq char, if_neg hemp, validateKnown_idem _ hwc,
        validate_prepared_eq char, if_neg hemp]
      exact validatePrepared_idem _ _ _
    · rw [validate_slots_eq (validate_spells_for_class char), hrc, if_neg hemp,
        validate_slots_eq char, if_neg hemp]
      exact validateSlots_idem _ hwc _

/-! ### C7 (amended): no duplicate occupancy -/

theorem ensure_entry_mono (char : Character) (s : Slot) (e : EquippedEntry)
    (h : eqVal (ensure_equipped_slots char) s = SlotVal.entry e) :
    eqVal char s = SlotVal.entry e := by
  have h' : fixSlotVal (eqVal char s) = SlotVal.entry e := h
  rcases hv : eqVal char s with _ | _ | e' | _ <;>
    simp only [hv, fixSlotVal] at h' <;> try cases h'
  rfl

theorem sweepMap_entry (m : Slot → SlotVal) (norm : String) (s : Slot) (e : EquippedEntry)
    (h : sweepMap m norm s = SlotVal.entry e) :
    m s = SlotVal.entry e ∧ entryNormName e ≠ norm := by
  unfold sweepMap at h
  rcases hv : m s with _ | _ | e' | _ <;> simp only [hv] at h <;> try cases h
  by_cases hn : entryNormName e' = norm
  · rw [if_pos hn] at h
    cases h
  · rw [if_neg hn] at h
    cases h
    exact ⟨rfl, hn⟩

theorem placeMap_entry (m : Slot → SlotVal) (slot : Slot) (en : EquippedEntry)
    (s : Slot) (e : EquippedEntry) (h : placeMap m slot en s = SlotVal.entry e) :
    (s = slot ∧ e = en) ∨ (s ≠ slot ∧ m s = SlotVal.entry e) := by
  unfold placeMap at h
  by_cases hs : s = slot
  · rw [if_pos hs] at h
    cases h
    exact Or.inl ⟨hs, rfl⟩
  · rw [if_neg hs] at h
    exact Or.inr ⟨hs, h⟩

theorem evictShieldMap_entry (m : Slot → SlotVal) (en : EquippedEntry)
    (s : Slot) (e : EquippedEntry) (h : evictShieldMap m en s = SlotVal.entry e) :
    m s = SlotVal.entry e := by
  unfold evictShieldMap at h
  by_cases harm : s = Slot.left_arm ∨ s = Slot.right_arm
  · rw [if_pos harm] at h
    rcases hv : m s with _ | _ | e' | _ <;> simp only [hv] at h <;> try cases h
    by_cases hev : (entryIsShield e' && e' != en) = true
    · rw [if_pos hev] at h
      cases h
    · rw [if_neg hev] at h
      cases h
      rfl
  · rw [if_neg harm] at h
    exact h

theorem unequip_entry (char : Character) (slot s : Slot) (e : EquippedEntry)
    (h : eqVal (unequip_slot char slot) s = SlotVal.entry e) :
    eqVal char s = SlotVal.entry e := by
  have h' : (if s = slot then SlotVal.empty
      else eqVal (ensure_equipped_slots char) s) = SlotVal.entry e := h
  by_cases hs : s = slot
  · rw [if_pos hs] at h'
    cases h'
  · rw [if_neg hs] at h'
    exact ensure_entry_mono _ _ _ h'

/-- Where an entry after `equip_to_slot` can come from: either it is the
newly built entry (placed at the target slot, or mirrored into the other
arm when the item is a two-handed weapon), or it survived the
duplicate sweep, hence has a different canonical-identity key. -/
theorem equip_entry_cases (char : Character) (slot : Slot) (item : String)
    (s : Slot) (e : EquippedEntry)
    (h : eqVal (equip_to_slot char slot item) s = SlotVal.entry e) :
    (e = newEntry item ∧
      (s = slot ∨ (isTwoHandedWeaponStats (lookup_item_stats item) = true ∧
        s = otherArm slot))) ∨
      (eqVal char s = SlotVal.entry e ∧ entryNormName e ≠ normOf item) := by
  unfold equip_to_slot at h
  dsimp only at h
  by_cases h2 : isTwoHandedWeaponStats (lookup_item_stats item)
  · rw [if_pos h2] at h
    have h3 := evictShieldMap_entry _ _ _ _ h
    rcases placeMap_entry _ _ _ _ _ h3 with ⟨hs, he⟩ | ⟨hs, h4⟩
    · exact Or.inl ⟨he, Or.inr ⟨h2, hs⟩⟩
    · rcases placeMap_entry _ _ _ _ _ h4 with ⟨hs2, he⟩ | ⟨hs2, h5⟩
      · exact Or.inl ⟨he, Or.inl hs2⟩
      · rcases sweepMap_entry _ _ _ _ h5 with ⟨h6, hn⟩
        exact Or.inr ⟨ensure_entry_mono _ _ _ h6, hn⟩
  · rw [if_neg h2] at h
    rcases placeMap_entry _ _ _ _ _ h with ⟨hs, he⟩ | ⟨hs, h4⟩
    · exact Or.inl ⟨he, Or.inl hs⟩
    · rcases sweepMap_entry _ _ _ _ h4 with ⟨h6, hn⟩
      exact Or.inr ⟨ensure_entry_mono _ _ _ h6, hn⟩

/-- The §3 occupancy invariant: two distinct occupied slots never hold the
same item by canonical identity, except the two arm slots holding one
identical two-handed-weapon entry. -/
def noDupInv (c : Character) : Prop :=
  ∀ s1 s2 e1 e2, s1 ≠ s2 → eqVal c s1 = SlotVal.entry e1 →
    eqVal c s2 = SlotVal.entry e2 → entryNormName e1 = entryNormName e2 →
    armSlotB s1 = true ∧ armSlotB s2 = true ∧ e1 = e2 ∧
      isTwoHandedWeaponStats e1.stats = true

/-- The side condition the counterexample forces: a two-handed weapon may
only be equipped into an arm slot. -/
def opOK : EquipOp → Bool
  | EquipOp.equip s item => !isTwoHandedWeaponStats (lookup_item_stats item) || armSlotB s
  | EquipOp.unequip _ => true

theorem otherArm_armSlot (slot : Slot) : armSlotB (otherArm slot) = true := by
  unfold otherArm armSlotB
  by_cases h : slot = Slot.right_arm
  · rw [if_pos h]; rfl
  · rw [if_neg h]; rfl

theorem equip_noDup (c : Character) (slot : Slot) (item : String)
    (hok : opOK (EquipOp.equip slot item) = true) (h : noDupInv c) :
    noDupInv (equip_to_slot c slot item) := by
  intro s1 s2 e1 e2 hne h1 h2 hnorm
  rcases equip_entry_cases c slot item s1 e1 h1 with ⟨he1, hp1⟩ | ⟨ho1, hn1⟩
  · rcases equip_entry_cases c slot item s2 e2 h2 with ⟨he2, hp2⟩ | ⟨ho2, hn2⟩
    · subst he1
      subst he2
      rcases hp1 with h1s | ⟨h2H, h1o⟩
      · rcases hp2 with h2s | ⟨h2H, h2o⟩
        · exact absurd (h1s.trans h2s.symm) hne
        · subst h1s
          subst h2o
          have hslotArm : armSlotB s1 = true := by
            simp only [opOK, h2H] at hok
            simpa using hok
          exact ⟨hslotArm, otherArm_armSlot _, rfl, h2H⟩
      · rcases hp2 with h2s | ⟨_, h2o⟩
        · subst h2s
          subst h1o
          have hslotArm : armSlotB s2 = true := by
            simp only [opOK, h2H] at hok
            simpa using hok
          exact ⟨otherArm_armSlot _, hslotArm, rfl, h2H⟩
        · subst h1o
          subst h2o
          exact absurd rfl hne
    · subst he1
      exact absurd hnorm.symm hn2
  · rcases equip_entry_cases c slot item s2 e2 h2 with ⟨he2, hp2⟩ | ⟨ho2, hn2⟩
    · subst he2
      exact absurd hnorm hn1
    · exact h s1 s2 e1 e2 hne ho1 ho2 hnorm

theorem unequip_noDup (c : Character) (slot : Slot) (h : noDupInv c) :
    noDupInv (unequip_slot c slot) :=
  fun s1 s2 e1 e2 hne h1 h2 hnorm =>
    h s1 s2 e1 e2 hne (unequip_entry _ _ _ _ h1) (unequip_entry _ _ _ _ h2) hnorm

theorem noDupInv_run (c : Character) (h : noDupInv c) (ops : List EquipOp)
    (hops : ∀ op ∈ ops, opOK op = true) : noDupInv (runEquipOps c ops) := by
  induction ops generalizing c with
  | nil => exact h
  | cons op rest ih =>
    have hop := hops op (List.mem_cons_self op rest)
    have hrest : ∀ op' ∈ rest, opOK op' = true :=
      fun op' h' => hops op' (List.mem_cons_of_mem op h')
    cases op with
    | equip slot item => exact ih _ (equip_noDup c slot item hop h) hrest
    | unequip slot => exact ih _ (unequip_noDup c slot h) hrest

/-- C7 (amended): starting from an all-empty equipped map, any sequence of
`equip_to_slot`/`unequip_slot` operations in which two-handed weapons are
only equipped into arm slots maintains the no-duplicate-occupancy
invariant: the same canonical item never occupies two distinct slots,
except one identical two-handed-weapon entry mirrored across exactly the
two arm slots. -/
theorem equip_ops_no_duplicates (c0 : Character)
    (h0 : ∀ s, eqVal c0 s = SlotVal.empty) (ops : List EquipOp)
    (hops : ∀ op ∈ ops, opOK op = true) : noDupInv (runEquipOps c0 ops) := by
  have hbase : noDupInv c0 := by
    intro s1 s2 e1 e2 hne h1 h2 hnorm
    rw [h0 s1] at h1
    cases h1
  exact noDupInv_run c0 hbase ops hops

/-- A concrete operation sequence for C7's witness: equip a two-handed
weapon into an arm, armor into the body, unequip, re-equip. -/
def c7Ops : List EquipOp :=
  [EquipOp.equip Slot.right_arm "greatsword", EquipOp.equip Slot.body "plate",
   EquipOp.unequip Slot.left_arm, EquipOp.equip Slot.left_arm "shield"]

theorem equip_ops_no_duplicates_witness :
    noDupInv (runEquipOps emptyEqChar c7Ops) :=
  equip_ops_no_duplicates emptyEqChar (fun _ => rfl) c7Ops (by decide)

/-! ### C9 (amended): auto-equip fills the body slot with the first match -/

theorem fuzzyBest_key_aux (tokens : List String) (l : List (String × ItemStats))
    (hl : ∀ kv ∈ l, srdHasKey kv.1 = true) (acc : Option String × Int)
    (hacc : ∀ k, acc.1 = some k → srdHasKey k = true) :
    ∀ k, (l.foldl
      (fun (acc : Option String × Int) kv =>
        let key_tokens := dedupKeep (_tokenize kv.1)
        if key_tokens ≠ [] && key_tokens.all (fun t => tokens.contains t) then
          let score : Int := (joinWith " " key_tokens).length
          if score > acc.2 then (some kv.1, score) else acc
        else acc)
      acc).1 = some k → srdHasKey k = true := by
  induction l generalizing acc with
  | nil => exact hacc
  | cons kv rest ih =>
    intro k hk
    refine ih (fun kv' h' => hl kv' (List.mem_cons_of_mem kv h')) _ ?_ k hk
    intro k' hk'
    dsimp only at hk'
    by_cases hc1 : (dedupKeep (_tokenize kv.1) ≠ [] &&
        (dedupKeep (_tokenize kv.1)).all (fun t => tokens.contains t)) = true
    · rw [if_pos hc1] at hk'
      by_cases hc2 : ((joinWith " " (dedupKeep (_tokenize kv.1))).length : Int) > acc.2
      · rw [if_pos hc2] at hk'
        cases hk'
        exact hl kv (List.mem_cons_self kv rest)
      · rw [if_neg hc2] at hk'
        exact hacc k' hk'
    · rw [if_neg hc1] at hk'
      exact hacc k' hk'

theorem fuzzyBest_key (tokens : List String) (k : String)
    (h : fuzzyBest tokens = some k) : srdHasKey k = true := by
  have hall : ∀ kv ∈ SRD_ITEMS, srdHasKey kv.1 = true := by decide
  exact fuzzyBest_key_aux tokens SRD_ITEMS hall (none, -1) (fun k hk => by cases hk) k h

theorem canonTail_hasKey (low k : String) (h : canonTail low = some k) :
    srdHasKey k = true := by
  unfold canonTail at h
  dsimp only at h
  rcases ha2 : _canonical_alias (joinWith " " (_tokenize low)) with _ | ali2 <;>
      simp only [ha2] at h
  · by_cases h3 : srdHasKey (joinWith " " (_tokenize low))
    · rw [if_pos h3] at h
      cases h
      exact h3
    · rw [if_neg h3] at h
      exact fuzzyBest_key _ _ h
  · by_cases h2 : srdHasKey ali2
    · rw [if_pos h2] at h
      dsimp only at h
      cases h
      exact h2
    · rw [if_neg h2] at h
      dsimp only at h
      by_cases h3 : srdHasKey (joinWith " " (_tokenize low))
      · rw [if_pos h3] at h
        cases h
        exact h3
      · rw [if_neg h3] at h
        exact fuzzyBest_key _ _ h

/-- Every `some` result of the canonicalizer is a catalog key. -/
theorem canon_hasKey (r k : String) (h : canonicalize_item_name r = some k) :
    srdHasKey k = true := by
  unfold canonicalize_item_name at h
  by_cases hr : r = ""
  · rw [if_pos hr] at h
    cases h
  · rw [if_neg hr] at h
    dsimp only at h
    by_cases h1 : srdHasKey (pyLower (pyStrip r))
    · rw [if_pos h1] at h
      cases h
      exact h1
    · rw [if_neg h1] at h
      rcases ha : _canonical_alias (pyLower (pyStrip r)) with _ | ali <;>
          simp only [ha] at h
      · exact canonTail_hasKey _ k h
      · by_cases h2 : srdHasKey ali
        · rw [if_pos h2] at h
          dsimp only at h
          cases h
          exact h2
        · rw [if_neg h2] at h
          dsimp only at h
          exact canonTail_hasKey _ k h

/-- All catalog keys are already lowercase. -/
theorem srd_keys_lower : ∀ p ∈ SRD_ITEMS, pyLower p.1 = p.1 := by decide

theorem hasKey_lower (k : String) (h : srdHasKey k = true) : pyLower k = k := by
  unfold srdHasKey at h
  rcases List.any_eq_true.mp h with ⟨p, hp, hpk⟩
  have hk : p.1 = k := by simpa using hpk
  rw [← hk]
  exact srd_keys_lower p hp

/-- The sweep key of a canonicalized name is its (lowercase) catalog key. -/
theorem normOf_of_canon (r k : String) (h : canonicalize_item_name r = some k) :
    normOf r = k := by
  unfold normOf
  rw [h]
  exact hasKey_lower k (canon_hasKey r k h)

theorem lookup_canon (r : String) (st : ItemStats)
    (h : lookup_item_stats r = some st) :
    ∃ k, canonicalize_item_name r = some k ∧ srdGet k = some st := by
  unfold lookup_item_stats at h
  by_cases hr : r = ""
  · rw [if_pos hr] at h
    cases h
  · rw [if_neg hr] at h
    rcases hc : canonicalize_item_name r with _ | k <;> rw [hc] at h
    · cases h
    · exact ⟨k, rfl, h⟩

theorem bodyOrder_hasKey : ∀ k ∈ BODY_ORDER, srdHasKey k = true := by decide

theorem bodyOrder_armor : ∀ k ∈ BODY_ORDER,
    (match srdGet k with
      | some st => st.type == "armor"
      | none => false) = true := by decide

theorem bodyOrder_tests : ∀ k ∈ BODY_ORDER,
    (strMem "boots" k || (k == "amulet") || strMem "necklace" k ||
      strMem "pendant" k || strMem "torc" k || (k == "helm") ||
      strMem "ring" k) = false := by decide

/-- Catalog-side refutation: an inventory item matched by the weapon,
shield, feet, neck, or canonical-helm heuristic can never share its sweep
key with a body-armor candidate's catalog key. -/
theorem body_key_safe (raw k : String) (hk : canonicalize_item_name raw = some k)
    (hkb : k ∈ BODY_ORDER) (r : String)
    (hr : (weaponPred r || shieldPred r || feetPred r || neckPred r ||
      (((canonicalize_item_name r).getD "") == "helm")) = true) :
    normOf r ≠ normOf raw := by
  intro hcontra
  rw [normOf_of_canon raw k hk] at hcontra
  have htests := bodyOrder_tests k hkb
  have harmor := bodyOrder_armor k hkb
  simp only [Bool.or_eq_true] at hr
  rcases hr with ((((hw | hs) | hf) | hn) | hh)
  · unfold weaponPred at hw
    rcases hst : lookup_item_stats r with _ | st <;> rw [hst] at hw
    · cases hw
    · rcases lookup_canon r st hst with ⟨k', hck, hget⟩
      rw [normOf_of_canon r k' hck] at hcontra
      subst hcontra
      rw [hget] at harmor
      simp only [beq_iff_eq] at hw harmor
      rw [harmor] at hw
      simp at hw
  · unfold shieldPred at hs
    rcases hst : lookup_item_stats r with _ | st <;> rw [hst] at hs
    · cases hs
    · rcases lookup_canon r st hst with ⟨k', hck, hget⟩
      rw [normOf_of_canon r k' hck] at hcontra
      subst hcontra
      rw [hget] at harmor
      simp only [beq_iff_eq] at hs harmor
      rw [harmor] at hs
      simp at hs
  · unfold feetPred at hf
    rcases hc : canonicalize_item_name r with _ | k' <;> rw [hc] at hf
    · rw [show strMem "boots" ((none : Option String).getD "") = false from rfl] at hf
      cases hf
    · rw [normOf_of_canon r k' hc] at hcontra
      subst hcontra
      simp only [Option.getD_some] at hf
      simp only [hf, Bool.true_or] at htests
      cases htests
  · unfold neckPred at hn
    rcases hc : canonicalize_item_name r with _ | k' <;> rw [hc] at hn
    · rw [show (((none : Option String).getD "" == "amulet") ||
          strMem "necklace" ((none : Option String).getD "") ||
          strMem "pendant" ((none : Option String).getD "") ||
          strMem "torc" ((none : Option String).getD "")) = false from rfl] at hn
      cases hn
    · rw [normOf_of_canon r k' hc] at hcontra
      subst hcontra
      simp only [Option.getD_some] at hn
      simp only [Bool.or_eq_true] at hn
      rcases hn with ((hn | hn) | hn) | hn <;>
        simp only [hn, Bool.or_true, Bool.true_or] at htests <;> cases htests
  · rcases hc : canonicalize_item_name r with _ | k' <;> rw [hc] at hh
    · rw [show ((none : Option String).getD "" == "helm") = false from rfl] at hh
      cases hh
    · rw [normOf_of_canon r k' hc] at hcontra
      subst hcontra
      simp only [Option.getD_some] at hh
      simp only [hh, Bool.or_true, Bool.true_or] at htests
      cases htests

theorem eqVal_mk (c : Character) (m : Slot → SlotVal) (s : Slot) :
    eqVal { c with equipped := some m } s = m s := rfl

theorem eqVal_ensure (c : Character) (s : Slot) :
    eqVal (ensure_equipped_slots c) s = fixSlotVal (eqVal c s) := rfl

theorem otherArm_ne_self (slot : Slot) : otherArm slot ≠ slot := by
  unfold otherArm
  by_cases h : slot = Slot.right_arm
  · rw [if_pos h, h]
    decide
  · rw [if_neg h]
    exact fun hc => h hc.symm

theorem otherArm_ne_body (slot : Slot) : otherArm slot ≠ Slot.body := by
  unfold otherArm
  by_cases h : slot = Slot.right_arm
  · rw [if_pos h]; decide
  · rw [if_neg h]; decide

theorem placeMap_self (m : Slot → SlotVal) (slot : Slot) (en : EquippedEntry) :
    placeMap m slot en slot = SlotVal.entry en := by
  unfold placeMap
  rw [if_pos rfl]

theorem placeMap_ne (m : Slot → SlotVal) (slot : Slot) (en : EquippedEntry)
    (s : Slot) (h : s ≠ slot) : placeMap m slot en s = m s := by
  unfold placeMap
  rw [if_neg h]

theorem evictShieldMap_self_entry (m : Slot → SlotVal) (en : EquippedEntry)
    (s : Slot) (h : m s = SlotVal.entry en) : evictShieldMap m en s = SlotVal.entry en := by
  unfold evictShieldMap
  by_cases harm : s = Slot.left_arm ∨ s = Slot.right_arm
  · rw [if_pos harm, h]
    simp
  · rw [if_neg harm]
    exact h

theorem evictShieldMap_not_arm (m : Slot → SlotVal) (en : EquippedEntry)
    (s : Slot) (h : ¬(s = Slot.left_arm ∨ s = Slot.right_arm)) :
    evictShieldMap m en s = m s := by
  unfold evictShieldMap
  rw [if_neg h]

theorem sweepMap_entry_keep (m : Slot → SlotVal) (norm : String) (s : Slot)
    (e : EquippedEntry) (h : m s = SlotVal.entry e) (hn : entryNormName e ≠ norm) :
    sweepMap m norm s = SlotVal.entry e := by
  unfold sweepMap
  rw [h]
  dsimp only
  rw [if_neg hn]

theorem sweepMap_keep_empty (m : Slot → SlotVal) (norm : String) (s : Slot)
    (h : m s = SlotVal.empty) : sweepMap m norm s = SlotVal.empty := by
  unfold sweepMap
  rw [h]

/-- The target slot always ends holding the freshly built entry. -/
theorem equip_at_slot (c : Character) (slot : Slot) (item : String) :
    eqVal (equip_to_slot c slot item) slot = SlotVal.entry (newEntry item) := by
  unfold equip_to_slot
  dsimp only
  split
  · rw [eqVal_mk]
    apply evictShieldMap_self_entry
    rw [placeMap_ne _ _ _ _ (Ne.symm (otherArm_ne_self slot))]
    exact placeMap_self _ _ _
  · rw [eqVal_mk]
    exact placeMap_self _ _ _

/-- A body entry with a different sweep key survives an equip targeting a
different slot. -/
theorem equip_keeps_body_entry (c : Character) (slot : Slot) (item : String)
    (e : EquippedEntry) (hs : slot ≠ Slot.body)
    (he : eqVal c Slot.body = SlotVal.entry e)
    (hnorm : entryNormName e ≠ normOf item) :
    eqVal (equip_to_slot c slot item) Slot.body = SlotVal.entry e := by
  have hsw : sweepMap (eqVal (ensure_equipped_slots c)) (normOf item) Slot.body
      = SlotVal.entry e :=
    sweepMap_entry_keep _ _ _ _ (by rw [eqVal_ensure, he]; rfl) hnorm
  unfold equip_to_slot
  dsimp only
  split
  · rw [eqVal_mk]
    rw [evictShieldMap_not_arm _ _ _ (by decide)]
    rw [placeMap_ne _ _ _ _ (Ne.symm (otherArm_ne_body slot))]
    rw [placeMap_ne _ _ _ _ (Ne.symm hs)]
    exact hsw
  · rw [eqVal_mk]
    rw [placeMap_ne _ _ _ _ (Ne.symm hs)]
    exact hsw

/-- An empty body slot stays empty through an equip targeting a different
slot. -/
theorem equip_keeps_body_empty (c : Character) (slot : Slot) (item : String)
    (hs : slot ≠ Slot.body) (he : eqVal c Slot.body = SlotVal.empty) :
    eqVal (equip_to_slot c slot item) Slot.body = SlotVal.empty := by
  have hsw : sweepMap (eqVal (ensure_equipped_slots c)) (normOf item) Slot.body
      = SlotVal.empty :=
    sweepMap_keep_empty _ _ _ (by rw [eqVal_ensure, he]; rfl)
  unfold equip_to_slot
  dsimp only
  split
  · rw [eqVal_mk]
    rw [evictShieldMap_not_arm _ _ _ (by decide)]
    rw [placeMap_ne _ _ _ _ (Ne.symm (otherArm_ne_body slot))]
    rw [placeMap_ne _ _ _ _ (Ne.symm hs)]
    exact hsw
  · rw [eqVal_mk]
    rw [placeMap_ne _ _ _ _ (Ne.symm hs)]
    exact hsw

theorem equipFirst_keeps_body_entry (c : Character) (slot : Slot)
    (pred : String → Bool) (e : EquippedEntry) (hs : slot ≠ Slot.body)
    (he : eqVal c Slot.body = SlotVal.entry e)
    (hn : ∀ r ∈ c.inventory, pred r = true → entryNormName e ≠ normOf r) :
    eqVal (equipFirst c slot pred) Slot.body = SlotVal.entry e := by
  unfold equipFirst
  rcases hf : c.inventory.find? pred with _ | raw <;> simp only [hf]
  · exact he
  · exact equip_keeps_body_entry c slot raw e hs he
      (hn raw (List.mem_of_find?_eq_some hf) (List.find?_some hf))

theorem equipFirst_keeps_body_empty (c : Character) (slot : Slot)
    (pred : String → Bool) (hs : slot ≠ Slot.body)
    (he : eqVal c Slot.body = SlotVal.empty) :
    eqVal (equipFirst c slot pred) Slot.body = SlotVal.empty := by
  unfold equipFirst
  rcases hf : c.inventory.find? pred with _ | raw <;> simp only [hf]
  · exact he
  · exact equip_keeps_body_empty c slot raw hs he

theorem equip_inventory (c : Character) (slot : Slot) (item : String) :
    (equip_to_slot c slot item).inventory = c.inventory := by
  unfold equip_to_slot
  dsimp only
  split <;> rfl

theorem equipFirst_inventory (c : Character) (slot : Slot) (pred : String → Bool) :
    (equipFirst c slot pred).inventory = c.inventory := by
  unfold equipFirst
  rcases hf : c.inventory.find? pred with _ | raw <;> simp only [hf]
  exact equip_inventory c slot raw

theorem autoBody_inventory (c : Character) : (autoBody c).inventory = c.inventory := by
  unfold autoBody
  split
  · rfl
  · exact equipFirst_inventory _ _ _

theorem autoRightArm_inventory (c : Character) :
    (autoRightArm c).inventory = c.inventory := by
  unfold autoRightArm
  split
  · rfl
  · exact equipFirst_inventory _ _ _

theorem autoLeftArm_inventory (c : Character) :
    (autoLeftArm c).inventory = c.inventory := by
  unfold autoLeftArm
  dsimp only
  split
  · exact equipFirst_inventory _ _ _
  · rfl

theorem autoFeet_inventory (c : Character) : (autoFeet c).inventory = c.inventory := by
  unfold autoFeet
  split
  · rfl
  · exact equipFirst_inventory _ _ _

theorem autoNeck_inventory (c : Character) : (autoNeck c).inventory = c.inventory := by
  unfold autoNeck
  split
  · rfl
  · exact equipFirst_inventory _ _ _

theorem autoHead_inventory (c : Character) : (autoHead c).inventory = c.inventory := by
  unfold autoHead
  split
  · rfl
  · exact equipFirst_inventory _ _ _

theorem autoRightHand_inventory (c : Character) :
    (autoRightHand c).inventory = c.inventory := by
  unfold autoRightHand
  split
  · rfl
  · exact equipFirst_inventory _ _ _

theorem autoRightArm_body_entry (c : Character) (e : EquippedEntry)
    (he : eqVal c Slot.body = SlotVal.entry e)
    (hn : ∀ r ∈ c.inventory, weaponPred r = true → entryNormName e ≠ normOf r) :
    eqVal (autoRightArm c) Slot.body = SlotVal.entry e := by
  unfold autoRightArm
  split
  · exact he
  · exact equipFirst_keeps_body_entry c Slot.right_arm weaponPred e (by decide) he hn

theorem autoLeftArm_body_entry (c : Character) (e : EquippedEntry)
    (he : eqVal c Slot.body = SlotVal.entry e)
    (hn : ∀ r ∈ c.inventory, shieldPred r = true → entryNormName e ≠ normOf r) :
    eqVal (autoLeftArm c) Slot.body = SlotVal.entry e := by
  unfold autoLeftArm
  dsimp only
  split
  · exact equipFirst_keeps_body_entry c Slot.left_arm shieldPred e (by decide) he hn
  · exact he

theorem autoFeet_body_entry (c : Character) (e : EquippedEntry)
    (he : eqVal c Slot.body = SlotVal.entry e)
    (hn : ∀ r ∈ c.inventory, feetPred r = true → entryNormName e ≠ normOf r) :
    eqVal (autoFeet c) Slot.body = SlotVal.entry e := by
  unfold autoFeet
  split
  · exact he
  · exact equipFirst_keeps_body_entry c Slot.feet feetPred e (by decide) he hn

theorem autoNeck_body_entry (c : Character) (e : EquippedEntry)
    (he : eqVal c Slot.body = SlotVal.entry e)
    (hn : ∀ r ∈ c.inventory, neckPred r = true → entryNormName e ≠ normOf r) :
    eqVal (autoNeck c) Slot.body = SlotVal.entry e := by
  unfold autoNeck
  split
  · exact he
  · exact equipFirst_keeps_body_entry c Slot.neck neckPred e (by decide) he hn

theorem autoHead_body_entry (c : Character) (e : EquippedEntry)
    (he : eqVal c Slot.body = SlotVal.entry e)
    (hn : ∀ r ∈ c.inventory, headPred r = true → entryNormName e ≠ normOf r) :
    eqVal (autoHead c) Slot.body = SlotVal.entry e := by
  unfold autoHead
  split
  · exact he
  · exact equipFirst_keeps_body_entry c Slot.head headPred e (by decide) he hn

theorem autoRightHand_body_entry (c : Character) (e : EquippedEntry)
    (he : eqVal c Slot.body = SlotVal.entry e)
    (hn : ∀ r ∈ c.inventory, ringTrigger r = true → entryNormName e ≠ normOf r) :
    eqVal (autoRightHand c) Slot.body = SlotVal.entry e := by
  unfold autoRightHand
  split
  · exact he
  · exact equipFirst_keeps_body_entry c Slot.right_hand ringTrigger e (by decide) he hn

theorem autoLeftHand_body_entry (c : Character) (e : EquippedEntry)
    (he : eqVal c Slot.body = SlotVal.entry e)
    (hn : ∀ r ∈ c.inventory, leftRingPred c r = true → entryNormName e ≠ normOf r) :
    eqVal (autoLeftHand c) Slot.body = SlotVal.entry e := by
  unfold autoLeftHand
  split
  · exact he
  · exact equipFirst_keeps_body_entry c Slot.left_hand (leftRingPred c) e (by decide) he hn

theorem autoRightArm_body_empty (c : Character)
    (he : eqVal c Slot.body = SlotVal.empty) :
    eqVal (autoRightArm c) Slot.body = SlotVal.empty := by
  unfold autoRightArm
  split
  · exact he
  · exact equipFirst_keeps_body_empty c Slot.right_arm weaponPred (by decide) he

theorem autoLeftArm_body_empty (c : Character)
    (he : eqVal c Slot.body = SlotVal.empty) :
    eqVal (autoLeftArm c) Slot.body = SlotVal.empty := by
  unfold autoLeftArm
  dsimp only
  split
  · exact equipFirst_keeps_body_empty c Slot.left_arm shieldPred (by decide) he
  · exact he

theorem autoFeet_body_empty (c : Character)
    (he : eqVal c Slot.body = SlotVal.empty) :
    eqVal (autoFeet c) Slot.body = SlotVal.empty := by
  unfold autoFeet
  split
  · exact he
  · exact equipFirst_keeps_body_empty c Slot.feet feetPred (by decide) he

theorem autoNeck_body_empty (c : Character)
    (he : eqVal c Slot.body = SlotVal.empty) :
    eqVal (autoNeck c) Slot.body = SlotVal.empty := by
  unfold autoNeck
  split
  · exact he
  · exact equipFirst_keeps_body_empty c Slot.neck neckPred (by decide) he

theorem autoHead_body_empty (c : Character)
    (he : eqVal c Slot.body = SlotVal.empty) :
    eqVal (autoHead c) Slot.body = SlotVal.empty := by
  unfold autoHead
  split
  · exact he
  · exact equipFirst_keeps_body_empty c Slot.head headPred (by decide) he

theorem autoRightHand_body_empty (c : Character)
    (he : eqVal c Slot.body = SlotVal.empty) :
    eqVal (autoRightHand c) Slot.body = SlotVal.empty := by
  unfold autoRightHand
  split
  · exact he
  · exact equipFirst_keeps_body_empty c Slot.right_hand ringTrigger (by decide) he

theorem autoLeftHand_body_empty (c : Character)
    (he : eqVal c Slot.body = SlotVal.empty) :
    eqVal (autoLeftHand c) Slot.body = SlotVal.empty := by
  unfold autoLeftHand
  split
  · exact he
  · exact equipFirst_keeps_body_empty c Slot.left_hand (leftRingPred c) (by decide) he

theorem autoBody_sets (c : Character) (raw : String)
    (hbody : eqVal c Slot.body = SlotVal.empty)
    (hf : c.inventory.find? bodyCand = some raw) :
    eqVal (autoBody c) Slot.body = SlotVal.entry (newEntry raw) := by
  unfold autoBody
  rw [if_neg (by rw [hbody]; decide)]
  unfold equipFirst
  rw [hf]
  exact equip_at_slot c Slot.body raw

theorem autoBody_none (c : Character) (hbody : eqVal c Slot.body = SlotVal.empty)
    (hf : c.inventory.find? bodyCand = none) :
    eqVal (autoBody c) Slot.body = SlotVal.empty := by
  unfold autoBody
  split
  · exact hbody
  · unfold equipFirst
    rw [hf]
    exact hbody

theorem leftRing_imp_ring (c : Character) (r : String)
    (h : leftRingPred c r = true) : ringTrigger r = true := by
  unfold leftRingPred at h
  simp only [Bool.and_eq_true] at h
  exact h.1

/-- C9 (amended): `auto_equip_defaults` never fails on the body slot — if
the inventory has no SRD-armor candidate the slot is simply left empty —
but when candidates exist it equips the FIRST inventory item (in inventory
order) whose canonical key is an SRD armor, NOT the best-armor-class
candidate.  Side condition: no inventory item matching the raw-name head
keywords or the ring heuristic shares the chosen armor's canonical key
(such an item would later displace the armor via the duplicate sweep). -/
theorem auto_equip_body_first_match (char : Character)
    (hbody : slotTruthy (eqVal char Slot.body) = false) :
    (∀ raw, char.inventory.find? bodyCand = some raw →
      (∀ r ∈ char.inventory, (headTrigger r || ringTrigger r) = true →
        normOf r ≠ normOf raw) →
      valItem (eqVal (auto_equip_defaults char) Slot.body) = some raw) ∧
    (char.inventory.find? bodyCand = none →
      eqVal (auto_equip_defaults char) Slot.body = SlotVal.empty) := by
  have hens : eqVal (ensure_equipped_slots char) Slot.body = SlotVal.empty := by
    rw [eqVal_ensure]
    rcases hv : eqVal char Slot.body with _ | _ | e | _ <;> rw [hv] at hbody <;>
      first | rfl | (simp [slotTruthy] at hbody)
  constructor
  · intro raw hf hsafe
    have hcand : bodyCand raw = true := List.find?_some hf
    obtain ⟨k, hck, hkmem⟩ : ∃ k, canonicalize_item_name raw = some k ∧ k ∈ BODY_ORDER := by
      unfold bodyCand at hcand
      rcases hc : canonicalize_item_name raw with _ | k <;> rw [hc] at hcand
      · cases hcand
      · exact ⟨k, rfl, List.elem_iff.mp hcand⟩
    have hW : ∀ r ∈ char.inventory, weaponPred r = true →
        entryNormName (newEntry raw) ≠ normOf r := fun r _ hp hc2 =>
      body_key_safe raw k hck hkmem r (by simp [hp]) hc2.symm
    have hS : ∀ r ∈ char.inventory, shieldPred r = true →
        entryNormName (newEntry raw) ≠ normOf r := fun r _ hp hc2 =>
      body_key_safe raw k hck hkmem r (by simp [hp]) hc2.symm
    have hF : ∀ r ∈ char.inventory, feetPred r = true →
        entryNormName (newEntry raw) ≠ normOf r := fun r _ hp hc2 =>
      body_key_safe raw k hck hkmem r (by simp [hp]) hc2.symm
    have hN : ∀ r ∈ char.inventory, neckPred r = true →
        entryNormName (newEntry raw) ≠ normOf r := fun r _ hp hc2 =>
      body_key_safe raw k hck hkmem r (by simp [hp]) hc2.symm
    have hH : ∀ r ∈ char.inventory, headPred r = true →
        entryNormName (newEntry raw) ≠ normOf r := by
      intro r hrm hp
      unfold headPred at hp
      simp only [Bool.or_eq_true] at hp
      rcases hp with hp | hp
      · exact fun hc2 => body_key_safe raw k hck hkmem r (by simp [hp]) hc2.symm
      · exact fun hc2 => hsafe r hrm (by simp [hp]) hc2.symm
    have hR : ∀ r ∈ char.inventory, ringTrigger r = true →
        entryNormName (newEntry raw) ≠ normOf r := fun r hrm hp hc2 =>
      hsafe r hrm (by simp [hp]) hc2.symm
    have h1 : eqVal (autoBody (ensure_equipped_slots char)) Slot.body
        = SlotVal.entry (newEntry raw) := autoBody_sets _ raw hens hf
    have i1 : (autoBody (ensure_equipped_slots char)).inventory = char.inventory :=
      autoBody_inventory _
    have h2 := autoRightArm_body_entry _ _ h1 (fun r hr hp => hW r (i1 ▸ hr) hp)
    have i2 := (autoRightArm_inventory _).trans i1
    have h3 := autoLeftArm_body_entry _ _ h2 (fun r hr hp => hS r (i2 ▸ hr) hp)
    have i3 := (autoLeftArm_inventory _).trans i2
    have h4 := autoFeet_body_entry _ _ h3 (fun r hr hp => hF r (i3 ▸ hr) hp)
    have i4 := (autoFeet_inventory _).trans i3
    have h5 := autoNeck_body_entry _ _ h4 (fun r hr hp => hN r (i4 ▸ hr) hp)
    have i5 := (autoNeck_inventory _).trans i4
    have h6 := autoHead_body_entry _ _ h5 (fun r hr hp => hH r (i5 ▸ hr) hp)
    have i6 := (autoHead_inventory _).trans i5
    have h7 := autoRightHand_body_entry _ _ h6 (fun r hr hp => hR r (i6 ▸ hr) hp)
    have i7 := (autoRightHand_inventory _).trans i6
    have h8 := autoLeftHand_body_entry _ _ h7
      (fun r hr hp => hR r (i7 ▸ hr) (leftRing_imp_ring _ r hp))
    show valItem (eqVal (auto_equip_defaults char) Slot.body) = some raw
    unfold auto_equip_defaults
    rw [h8]
    rfl
  · intro hf
    have h1 := autoBody_none _ hens hf
    have h2 := autoRightArm_body_empty _ h1
    have h3 := autoLeftArm_body_empty _ h2
    have h4 := autoFeet_body_empty _ h3
    have h5 := autoNeck_body_empty _ h4
    have h6 := autoHead_body_empty _ h5
    have h7 := autoRightHand_body_empty _ h6
    have h8 := autoLeftHand_body_empty _ h7
    unfold auto_equip_defaults
    exact h8

theorem auto_equip_body_first_match_witness :
    valItem (eqVal (auto_equip_defaults c9Cex) Slot.body) = some "leather armor" :=
  (auto_equip_body_first_match c9Cex (by decide)).1 "leather armor" (by decide) (by decide)

end RPG
